import Mathlib

/-!
# Stripe invoice delay system: a shallow embedding

The development follows the JavaScript sources

* `src/config/index.js`            (configuration),
* `src/utils/dateHelper.js`        (`DateHelper`),
* `src/services/stripeService.js`  (`StripeService`),
* `src/services/invoiceProcessor.js` (`InvoiceProcessor`).

Conventions of the embedding.

* Instants are epoch milliseconds (`Int`), as in a JavaScript `Date`.
* The business zone is `Asia/Dubai`, a fixed UTC+4 zone without daylight saving, so a
  `moment` in that zone is an instant together with the constant offset `utcOffsetMs`.
* The wall clock and the payment provider are an environment `Env`: the `k`-th call of
  `dateHelper.getCurrentMoment()` (or `Date.now()`) reads `env.clock k`, the `k`-th call of
  `stripe.invoices.update` succeeds iff `env.updateOk k`.  Effects are recorded in a `World`
  that is passed explicitly.
* Amounts and volumes are JavaScript numbers.  The code only uses `+`, `/ 100`, `<` and `>=`
  on them, so the embedding is parametric in the number type `R`; no rounding law is assumed.
  The comparisons are those of a linear order (finite numbers, no `NaN`).
* Logging (`src/utils/logger.js`) writes to the console and to a file and returns nothing
  to its callers; it is not part of the embedding.
-/

namespace StripeInvoice

/-! ## Configuration (`src/config/index.js`) -/

/-- The `system` block of the configuration.  `grossVolumeLimit` and `accountCurrency` come
from the process environment; `delayScheme` is the constant `[1, 3, 5, 7, 9]` in the source
and is kept as a field so that statements can range over schemes. -/
structure Config (R : Type) where
  grossVolumeLimit : R
  accountCurrency : String := "AED"
  delayScheme : List Int := [1, 3, 5, 7, 9]

/-- The constant `config.system.transferTime`. -/
def transferTime : String := "12:00"

/-- Offset of the business zone `Asia/Dubai` from UTC, in milliseconds (UTC+4, no DST). -/
def utcOffsetMs : Int := 4 * 3600 * 1000

/-! ## Moments in the business zone (the part of `moment-timezone` the code uses) -/

/-- A `moment` in the business zone: an instant in epoch milliseconds. -/
structure Moment where
  utcMs : Int
  deriving DecidableEq, Repr

namespace Moment

/-- Local wall-clock milliseconds (epoch milliseconds shifted by the zone offset). -/
def localMs (m : Moment) : Int := m.utcMs + utcOffsetMs

/-- The moment whose local wall-clock milliseconds are `l`. -/
def ofLocalMs (l : Int) : Moment := ⟨l - utcOffsetMs⟩

/-- Local calendar day, counted in days since 1970-01-01. -/
def localDay (m : Moment) : Int := m.localMs / 86400000

/-- Milliseconds elapsed since local midnight. -/
def msOfDay (m : Moment) : Int := m.localMs % 86400000

/-- Getter `hour()`. -/
def getHour (m : Moment) : Int := m.msOfDay / 3600000

/-- Getter `minute()`. -/
def getMinute (m : Moment) : Int := m.msOfDay % 3600000 / 60000

/-- Getter `second()`. -/
def getSecond (m : Moment) : Int := m.msOfDay % 60000 / 1000

/-- Getter `millisecond()`. -/
def getMillisecond (m : Moment) : Int := m.msOfDay % 1000

/-- Method `add(d, 'days')`: the calendar day moves by `d`, the time of day is kept. -/
def addDays (d : Int) (m : Moment) : Moment := ofLocalMs (m.localMs + d * 86400000)

/-- Setter `hour(h)`. -/
def hour (h : Int) (m : Moment) : Moment := ofLocalMs (m.localMs + (h - m.getHour) * 3600000)

/-- Setter `minute(x)`. -/
def minute (x : Int) (m : Moment) : Moment := ofLocalMs (m.localMs + (x - m.getMinute) * 60000)

/-- Setter `second(x)`. -/
def second (x : Int) (m : Moment) : Moment := ofLocalMs (m.localMs + (x - m.getSecond) * 1000)

/-- Setter `millisecond(x)`. -/
def millisecond (x : Int) (m : Moment) : Moment := ofLocalMs (m.localMs + (x - m.getMillisecond))

/-- Method `startOf('day')`. -/
def startOfDay (m : Moment) : Moment := ofLocalMs (m.localMs - m.msOfDay)

/-- Method `endOf('day')`: the last millisecond of the local day. -/
def endOfDay (m : Moment) : Moment := ofLocalMs (m.localMs - m.msOfDay + 86400000 - 1)

/-- Method `unix()`: epoch seconds, rounded down. -/
def unix (m : Moment) : Int := m.utcMs / 1000

/-- Constructor `moment.unix(ts)`. -/
def ofUnix (ts : Int) : Moment := ⟨ts * 1000⟩

/-- Civil year, month (1..12) and day of month (1..31) of a day number counted from
1970-01-01, in the proleptic Gregorian calendar (what the `Date` getters return). -/
def civil (days : Int) : Int × Int × Int :=
  let z := days + 719468
  let era := z / 146097
  let doe := z % 146097
  let yoe := (doe - doe / 1460 + doe / 36524 - doe / 146096) / 365
  let doy := doe - (365 * yoe + yoe / 4 - yoe / 100)
  let mp := (5 * doy + 2) / 153
  let d := doy - (153 * mp + 2) / 5 + 1
  let mth := if mp < 10 then mp + 3 else mp - 9
  let y := yoe + era * 400 + (if mth ≤ 2 then 1 else 0)
  (y, mth, d)

/-- Getter `year()`. -/
def getYear (m : Moment) : Int := (civil m.localDay).1

/-- Getter `month() + 1`. -/
def getMonth (m : Moment) : Int := (civil m.localDay).2.1

/-- Getter `date()`. -/
def getDate (m : Moment) : Int := (civil m.localDay).2.2

/-- The helper `zeroFill(number, targetLength)` of moment: sign, zero padding, digits. -/
def zeroFill (number : Int) (targetLength : Nat) : String :=
  let absNumber := toString number.natAbs
  (if 0 ≤ number then "" else "-") ++
    String.mk (List.replicate (targetLength - absNumber.length) '0') ++ absNumber

/-- Method `format('YYYY-MM-DD')`. -/
def formatDate (m : Moment) : String :=
  zeroFill m.getYear 4 ++ "-" ++ zeroFill m.getMonth 2 ++ "-" ++ zeroFill m.getDate 2

/-- Method `format('HH:mm')`. -/
def formatHourMinute (m : Moment) : String :=
  zeroFill m.getHour 2 ++ ":" ++ zeroFill m.getMinute 2

/-- Method `format('YYYY-MM-DD HH:mm:ss')`. -/
def format (m : Moment) : String :=
  m.formatDate ++ " " ++ m.formatHourMinute ++ ":" ++ zeroFill m.getSecond 2

/-- Method `format('YYYY-MM-DD-HHmmss')`. -/
def formatCompact (m : Moment) : String :=
  m.formatDate ++ "-" ++ zeroFill m.getHour 2 ++ zeroFill m.getMinute 2 ++ zeroFill m.getSecond 2

end Moment

/-! ## Environment and world -/

/-- A charge as returned by `stripe.charges.list`. -/
structure Charge (R : Type) where
  id : String
  amount : R
  currency : String
  status : String
  created : Int

/-- An invoice as returned by `stripe.invoices.list`. -/
structure RawInvoice (R : Type) where
  id : String
  amount_due : R
  currency : String
  due_date : Option Int
  customer : String
  created : Int

/-- What the outside world answers: clock readings and provider responses. -/
structure Env (R : Type) where
  /-- The reading of the wall clock at its `k`-th read, in epoch milliseconds. -/
  clock : Nat → Int
  /-- The answer of `stripe.charges.list`: the charges, or an error message. -/
  chargesList : Except String (List (Charge R))
  /-- The answer of `stripe.invoices.list({status: 'open'})`. -/
  invoicesList : Except String (List (RawInvoice R))
  /-- Whether the `k`-th call of `stripe.invoices.update` succeeds. -/
  updateOk : Nat → Bool
  /-- Whether `fs.writeJson` succeeds. -/
  writeOk : Bool

/-- The effects performed so far. -/
structure World where
  /-- Number of wall-clock reads. -/
  reads : Nat := 0
  /-- Number of `stripe.charges.list` calls. -/
  chargeFetches : Nat := 0
  /-- Number of `stripe.invoices.list` calls. -/
  invoiceFetches : Nat := 0
  /-- The `stripe.invoices.update` calls issued, oldest first: invoice id and `due_date`. -/
  updateCalls : List (String × Int) := []
  /-- The session files written, oldest first. -/
  savedFiles : List String := []
  deriving DecidableEq, Repr

/-! ## `DateHelper` (`src/utils/dateHelper.js`) -/

/-- The value of `a % b` on integer-valued JavaScript numbers (sign of the dividend). -/
def jsMod (a b : Int) : Int := Int.tmod a b

/-- The value of `xs[k]` for an integer-valued index: `undefined` (here `none`) outside
the array. -/
def jsIndex {α : Type} (xs : List α) (k : Int) : Option α :=
  if k < 0 then none else xs[k.toNat]?

/-- The result object of `calculateNewDueDate`. -/
structure DueDateInfo where
  timestamp : Int
  dateString : String
  daysOffset : Option Int
  cyclePosition : Int
  deriving DecidableEq, Repr

/-- The result object of `getCurrentDayRange`. -/
structure DayRange where
  start : Int
  «end» : Int
  startDate : String
  endDate : String
  deriving DecidableEq, Repr

/-- Method `DateHelper.getCurrentMoment`: one read of the wall clock. -/
def getCurrentMoment {R : Type} (env : Env R) (w : World) : Moment × World :=
  (⟨env.clock w.reads⟩, { w with reads := w.reads + 1 })

/-- Method `DateHelper.getCurrentDayRange`. -/
def getCurrentDayRange {R : Type} (env : Env R) (w : World) : DayRange × World :=
  let (now, w1) := getCurrentMoment env w
  let startOfDay := now.startOfDay
  let endOfDay := now.endOfDay
  ({ start := startOfDay.unix
     «end» := endOfDay.unix
     startDate := startOfDay.formatDate
     endDate := endOfDay.formatDate }, w1)

/-- The moment `now.add(daysOffset, 'days').hour(12).minute(0).second(0).millisecond(0)`.
An `undefined` offset adds nothing (moment builds an empty duration from it). -/
def dueMoment (now : Moment) (daysOffset : Option Int) : Moment :=
  ((((now.addDays (daysOffset.getD 0)).hour 12).minute 0).second 0).millisecond 0

/-- Method `DateHelper.calculateNewDueDate`.  The scheme is `config.system.delayScheme`.
(On an empty scheme JavaScript computes `NaN` for the position; the embedding is meant for
non-empty schemes.) -/
def calculateNewDueDate {R : Type} (env : Env R) (delayScheme : List Int) (invoiceNumber : Int)
    (w : World) : DueDateInfo × World :=
  let cyclePosition := jsMod (invoiceNumber - 1) delayScheme.length
  let daysOffset := jsIndex delayScheme cyclePosition
  let (now, w1) := getCurrentMoment env w
  let newDueDate := dueMoment now daysOffset
  ({ timestamp := newDueDate.unix
     dateString := newDueDate.format
     daysOffset := daysOffset
     cyclePosition := cyclePosition + 1 }, w1)

/-- Method `DateHelper.formatTimestamp`. -/
def formatTimestamp (timestamp : Int) : String := (Moment.ofUnix timestamp).format

/-! ## `StripeService` (`src/services/stripeService.js`) -/

/-- An entry of the `charges` list of a volume snapshot. -/
structure ProcessedCharge (R : Type) where
  id : String
  amount : R
  currency : String
  created : String

/-- The result object of `getDailyGrossVolume`. -/
structure VolumeData (R : Type) where
  volume : R
  currency : String
  charges : List (ProcessedCharge R)
  dateRange : DayRange

/-- An entry of the list returned by `getUnpaidInvoices`. -/
structure Invoice (R : Type) where
  id : String
  amount : R
  currency : String
  due_date : Option Int
  customer : String
  created : String
  current_due_date : String

/-- The object `transferInfo` built by `processInvoiceTransfers`. -/
structure TransferInfo (R : Type) where
  invoiceId : String
  invoiceNumber : Int
  originalDueDate : String
  newDueDate : String
  daysOffset : Option Int
  cyclePosition : Int
  amount : R
  currency : String
  transferredAt : String

/-- The string method `toLowerCase`, on ASCII letters (currency codes are ASCII). -/
def toLowerCase (s : String) : String := String.mk (s.data.map Char.toLower)

/-- The field `this.currency` set by the constructor: the account currency in lower case. -/
def serviceCurrency {R : Type} (cfg : Config R) : String := toLowerCase cfg.accountCurrency

/-- The condition of the `if` in the loop of `getDailyGrossVolume`. -/
def chargeCounts {R : Type} (cfg : Config R) (charge : Charge R) : Bool :=
  toLowerCase charge.currency == serviceCurrency cfg && charge.status == "succeeded"

/-- The `for` loop of `getDailyGrossVolume` over `charges.data`, with its two accumulators
`grossVolume` and `processedCharges`. -/
def grossVolumeLoop {R : Type} [Add R] [Div R] [OfNat R 100] (cfg : Config R) :
    List (Charge R) → R → List (ProcessedCharge R) → R × List (ProcessedCharge R)
  | [], grossVolume, processedCharges => (grossVolume, processedCharges)
  | charge :: rest, grossVolume, processedCharges =>
    if chargeCounts cfg charge then
      let amount := charge.amount / 100
      grossVolumeLoop cfg rest (grossVolume + amount)
        (processedCharges ++ [{ id := charge.id
                                amount := amount
                                currency := charge.currency
                                created := formatTimestamp charge.created }])
    else
      grossVolumeLoop cfg rest grossVolume processedCharges

/-- Method `StripeService.getDailyGrossVolume`.  A failure of the charge listing is
rethrown. -/
def getDailyGrossVolume {R : Type} [Zero R] [Add R] [Div R] [OfNat R 100] (cfg : Config R)
    (env : Env R) (w : World) : Except String (VolumeData R) × World :=
  let (dayRange, w1) := getCurrentDayRange env w
  let w2 := { w1 with chargeFetches := w1.chargeFetches + 1 }
  match env.chargesList with
  | .error e => (.error e, w2)
  | .ok charges =>
    let (grossVolume, processedCharges) := grossVolumeLoop cfg charges 0 []
    (.ok { volume := grossVolume
           currency := cfg.accountCurrency
           charges := processedCharges
           dateRange := dayRange }, w2)

/-- Method `StripeService.getUnpaidInvoices`.  A failure of the invoice listing is
rethrown. -/
def getUnpaidInvoices {R : Type} [Div R] [OfNat R 100] (cfg : Config R) (env : Env R)
    (w : World) : Except String (List (Invoice R)) × World :=
  let w1 := { w with invoiceFetches := w.invoiceFetches + 1 }
  match env.invoicesList with
  | .error e => (.error e, w1)
  | .ok invoices =>
    let unpaidInvoices := invoices.filter
      (fun invoice => toLowerCase invoice.currency == serviceCurrency cfg)
    (.ok (unpaidInvoices.map (fun invoice =>
      { id := invoice.id
        amount := invoice.amount_due / 100
        currency := invoice.currency
        due_date := invoice.due_date
        customer := invoice.customer
        created := formatTimestamp invoice.created
        current_due_date := match invoice.due_date with
          | some dd => formatTimestamp dd
          | none => "No due date" })), w1)

/-- Method `StripeService.updateInvoiceDueDate`: one call of `stripe.invoices.update`, whose
failure is rethrown. -/
def updateInvoiceDueDate {R : Type} (env : Env R) (invoiceId : String)
    (newDueDateTimestamp : Int) (w : World) : Except String Unit × World :=
  let w1 := { w with updateCalls := w.updateCalls ++ [(invoiceId, newDueDateTimestamp)] }
  if env.updateOk w.updateCalls.length then (.ok (), w1)
  else (.error "update failed", w1)

/-- The `for` loop of `processInvoiceTransfers`: `i` is the loop index of the first
remaining invoice, `transferredInvoices` the array built so far.  A failed update is caught
and the loop goes on with the next invoice. -/
def transferLoop {R : Type} (cfg : Config R) (env : Env R) :
    List (Invoice R) → Nat → List (TransferInfo R) → World → List (TransferInfo R) × World
  | [], _, transferredInvoices, w => (transferredInvoices, w)
  | invoice :: rest, i, transferredInvoices, w =>
    let invoiceNumber : Int := i + 1
    let (newDueDateInfo, w1) := calculateNewDueDate env cfg.delayScheme invoiceNumber w
    match updateInvoiceDueDate env invoice.id newDueDateInfo.timestamp w1 with
    | (.ok _, w2) =>
      let (now, w3) := getCurrentMoment env w2
      let transferInfo : TransferInfo R :=
        { invoiceId := invoice.id
          invoiceNumber := invoiceNumber
          originalDueDate := invoice.current_due_date
          newDueDate := newDueDateInfo.dateString
          daysOffset := newDueDateInfo.daysOffset
          cyclePosition := newDueDateInfo.cyclePosition
          amount := invoice.amount
          currency := invoice.currency
          transferredAt := now.format }
      transferLoop cfg env rest (i + 1) (transferredInvoices ++ [transferInfo]) w3
    | (.error _, w2) =>
      transferLoop cfg env rest (i + 1) transferredInvoices w2

/-- Method `StripeService.processInvoiceTransfers`. -/
def processInvoiceTransfers {R : Type} (cfg : Config R) (env : Env R)
    (unpaidInvoices : List (Invoice R)) (w : World) : List (TransferInfo R) × World :=
  transferLoop cfg env unpaidInvoices 0 [] w

/-! ## `InvoiceProcessor` (`src/services/invoiceProcessor.js`) -/

/-- The `trigger` block of a session record. -/
structure Trigger (R : Type) where
  dailyVolume : R
  volumeLimit : R
  currency : String

/-- The `processing` block of a session record. -/
structure Processing where
  totalUnpaidInvoices : Nat
  totalTransferred : Nat
  delayScheme : List Int

/-- The object `sessionData`. -/
structure SessionData (R : Type) where
  sessionId : String
  timestamp : String
  timezone : String
  trigger : Trigger R
  processing : Processing
  transfers : List (TransferInfo R)
  volumeDetails : VolumeData R

/-- The object returned by `checkAndProcessInvoices`; a field the source leaves out of a
result is `none`. -/
structure RunResult (R : Type) where
  processed : Bool
  reason : Option String
  sessionData : Option (SessionData R)
  transferredInvoices : Option (List (TransferInfo R))
  volumeData : VolumeData R

/-- The object returned by `getProcessingSummary`. -/
structure Summary (R : Type) where
  currentTime : String
  timezone : String
  dailyVolume : R
  volumeLimit : R
  currency : String
  unpaidInvoicesCount : Nat
  limitReached : Bool
  totalCharges : Nat

/-- The constant `config.system.timezone` (its default). -/
def timezone : String := "Asia/Dubai"

/-- Method `InvoiceProcessor.saveTransferSession`: the file name reads the clock; a failed
write is caught. -/
def saveTransferSession {R : Type} (env : Env R) (w : World) : World :=
  let (now, w1) := getCurrentMoment env w
  let filename := "transfer-session-" ++ now.formatCompact ++ ".json"
  if env.writeOk then { w1 with savedFiles := w1.savedFiles ++ [filename] } else w1

/-- Method `InvoiceProcessor.checkAndProcessInvoices`.  The first clock read is the one of the
opening log line; `Date.now()` of the session id is a clock read as well. -/
def checkAndProcessInvoices {R : Type} [LinearOrder R] [Zero R] [Add R] [Div R] [OfNat R 100]
    (cfg : Config R) (env : Env R) (w : World) : Except String (RunResult R) × World :=
  let (_, w0) := getCurrentMoment env w
  match getDailyGrossVolume cfg env w0 with
  | (.error e, w1) => (.error e, w1)
  | (.ok volumeData, w1) =>
    if volumeData.volume < cfg.grossVolumeLimit then
      (.ok { processed := false
             reason := some "Volume below limit"
             sessionData := none
             transferredInvoices := none
             volumeData := volumeData }, w1)
    else
      match getUnpaidInvoices cfg env w1 with
      | (.error e, w2) => (.error e, w2)
      | (.ok unpaidInvoices, w2) =>
        if unpaidInvoices.length = 0 then
          (.ok { processed := false
                 reason := some "No unpaid invoices"
                 sessionData := none
                 transferredInvoices := none
                 volumeData := volumeData }, w2)
        else
          let (transferredInvoices, w3) := processInvoiceTransfers cfg env unpaidInvoices w2
          let (dateNow, w4) := getCurrentMoment env w3
          let (now, w5) := getCurrentMoment env w4
          let sessionData : SessionData R :=
            { sessionId := "session-" ++ toString dateNow.utcMs
              timestamp := now.format
              timezone := timezone
              trigger := { dailyVolume := volumeData.volume
                           volumeLimit := cfg.grossVolumeLimit
                           currency := cfg.accountCurrency }
              processing := { totalUnpaidInvoices := unpaidInvoices.length
                              totalTransferred := transferredInvoices.length
                              delayScheme := cfg.delayScheme }
              transfers := transferredInvoices
              volumeDetails := volumeData }
          let w6 := saveTransferSession env w5
          (.ok { processed := true
                 reason := none
                 sessionData := some sessionData
                 transferredInvoices := some transferredInvoices
                 volumeData := volumeData }, w6)

/-- Method `InvoiceProcessor.getProcessingSummary`. -/
def getProcessingSummary {R : Type} [LinearOrder R] [Zero R] [Add R] [Div R] [OfNat R 100]
    (cfg : Config R) (env : Env R) (w : World) : Except String (Summary R) × World :=
  match getDailyGrossVolume cfg env w with
  | (.error e, w1) => (.error e, w1)
  | (.ok volumeData, w1) =>
    match getUnpaidInvoices cfg env w1 with
    | (.error e, w2) => (.error e, w2)
    | (.ok unpaidInvoices, w2) =>
      let (now, w3) := getCurrentMoment env w2
      (.ok { currentTime := now.format
             timezone := timezone
             dailyVolume := volumeData.volume
             volumeLimit := cfg.grossVolumeLimit
             currency := cfg.accountCurrency
             unpaidInvoicesCount := unpaidInvoices.length
             limitReached := decide (volumeData.volume ≥ cfg.grossVolumeLimit)
             totalCharges := volumeData.charges.length }, w3)

/-! ## Names for the values built by one iteration of the transfer loop -/

/-- The `transferInfo` object pushed for the invoice at loop index `i` when its update
succeeds, `r` being the number of clock reads made before the iteration. -/
def transferAt {R : Type} (cfg : Config R) (env : Env R) (i : Nat) (invoice : Invoice R)
    (r : Nat) : TransferInfo R :=
  { invoiceId := invoice.id
    invoiceNumber := (i : Int) + 1
    originalDueDate := invoice.current_due_date
    newDueDate := (dueMoment ⟨env.clock r⟩
      (jsIndex cfg.delayScheme (jsMod ((i : Int) + 1 - 1) cfg.delayScheme.length))).format
    daysOffset := jsIndex cfg.delayScheme (jsMod ((i : Int) + 1 - 1) cfg.delayScheme.length)
    cyclePosition := jsMod ((i : Int) + 1 - 1) cfg.delayScheme.length + 1
    amount := invoice.amount
    currency := invoice.currency
    transferredAt := (Moment.mk (env.clock (r + 1))).format }

/-- The world after the iteration for the invoice at loop index `i`: one update call was
issued; the clock was read once, and once more when the update succeeded. -/
def worldAt {R : Type} (cfg : Config R) (env : Env R) (i : Nat) (invoice : Invoice R)
    (w : World) (ok : Bool) : World :=
  { w with reads := if ok then w.reads + 1 + 1 else w.reads + 1
           updateCalls := w.updateCalls ++ [(invoice.id,
             (dueMoment ⟨env.clock w.reads⟩
               (jsIndex cfg.delayScheme
                 (jsMod ((i : Int) + 1 - 1) cfg.delayScheme.length))).unix)] }

/-- The entry pushed to `processedCharges` for a charge that counts. -/
def processedOf {R : Type} [Div R] [OfNat R 100] (charge : Charge R) : ProcessedCharge R :=
  { id := charge.id
    amount := charge.amount / 100
    currency := charge.currency
    created := formatTimestamp charge.created }

/-! ## Scenarios of the specification, as concrete environments -/

/-- The default configuration with threshold 30 (currency AED, scheme `[1, 3, 5, 7, 9]`). -/
def scenarioConfig : Config ℚ := { grossVolumeLimit := 30 }

/-- Two open invoices in the account currency. -/
def twoInvoices : List (RawInvoice ℚ) :=
  [⟨"in_1", 1000, "aed", none, "cus_1", 1730000000⟩,
   ⟨"in_2", 2000, "aed", some 1730900000, "cus_2", 1730000000⟩]

/-- Scenario B: the day's volume is 29.99 in the account currency (plus a charge in another
currency and a failed one); the clock starts at 2024-11-04 21:00:00 UTC. -/
def scenarioB : Env ℚ :=
  { clock := fun k => 1730754000000 + 150 * (k : Int)
    chargesList := .ok [⟨"ch_1", 2999, "aed", "succeeded", 1730754000⟩,
      ⟨"ch_2", 5000, "usd", "succeeded", 1730754000⟩,
      ⟨"ch_3", 100, "aed", "failed", 1730754000⟩]
    invoicesList := .ok twoInvoices
    updateOk := fun _ => true
    writeOk := true }

/-- Scenario D: the day's volume is 30.00, two invoices, the second update fails. -/
def scenarioD : Env ℚ :=
  { clock := fun k => 1730754000000 + 150 * (k : Int)
    chargesList := .ok [⟨"ch_1", 3000, "aed", "succeeded", 1730754000⟩]
    invoicesList := .ok twoInvoices
    updateOk := fun k => decide (k = 0)
    writeOk := true }

/-- The list `getUnpaidInvoices` returns for `twoInvoices`. -/
def twoUnpaid : List (Invoice ℚ) :=
  [{ id := "in_1", amount := 1000 / 100, currency := "aed", due_date := none,
     customer := "cus_1", created := formatTimestamp 1730000000,
     current_due_date := "No due date" },
   { id := "in_2", amount := 2000 / 100, currency := "aed", due_date := some 1730900000,
     customer := "cus_2", created := formatTimestamp 1730000000,
     current_due_date := formatTimestamp 1730900000 }]

/-- Six open invoices in the account currency, as `getUnpaidInvoices` returns them. -/
def sixUnpaid : List (Invoice ℚ) :=
  ["in_1", "in_2", "in_3", "in_4", "in_5", "in_6"].map (fun name =>
    { id := name, amount := 1000 / 100, currency := "aed", due_date := none,
      customer := "cus_1", created := formatTimestamp 1730000000,
      current_due_date := "No due date" })

/-- A run that starts half a second before business-local midnight of 2024-11-05
(19:59:59.500 UTC); successive clock reads are 150 ms apart and every update succeeds. -/
def midnightRun : Env ℚ :=
  { clock := fun k => 1730836799500 + 150 * (k : Int)
    chargesList := .ok [⟨"ch_1", 3000, "aed", "succeeded", 1730754000⟩]
    invoicesList := .ok []
    updateOk := fun _ => true
    writeOk := true }

/-- The string `newDueDate` for a clock reading on the business-local day `day` (counted from
1970-01-01) and a cycle position: noon of the day `daysOffset` days later. -/
def dueDateOn (delayScheme : List Int) (day : Int) (cyclePosition : Int) : String :=
  (Moment.ofLocalMs ((day + (jsIndex delayScheme (cyclePosition - 1)).getD 0) * 86400000
    + 12 * 3600000)).format

/-! ## Facts about `DateHelper` -/

theorem jsMod_of_nonneg (a : Int) (b : Nat) (ha : 0 ≤ a) : jsMod a b = a % (b : Int) := by
  unfold jsMod
  exact Int.tmod_eq_emod ha (Int.ofNat_nonneg b)

theorem jsIndex_natCast {α : Type} (xs : List α) (k : Nat) : jsIndex xs (k : Int) = xs[k]? := by
  unfold jsIndex
  simp

theorem calculateNewDueDate_cyclePosition {R : Type} (env : Env R) (scheme : List Int)
    (n : Int) (w : World) :
    (calculateNewDueDate env scheme n w).1.cyclePosition = jsMod (n - 1) scheme.length + 1 :=
  rfl

theorem calculateNewDueDate_daysOffset {R : Type} (env : Env R) (scheme : List Int)
    (n : Int) (w : World) :
    (calculateNewDueDate env scheme n w).1.daysOffset
      = jsIndex scheme (jsMod (n - 1) scheme.length) :=
  rfl

theorem calculateNewDueDate_world {R : Type} (env : Env R) (scheme : List Int)
    (n : Int) (w : World) :
    (calculateNewDueDate env scheme n w).2 = { w with reads := w.reads + 1 } :=
  rfl

/-- C1: for a non-empty scheme and an invoice number `n ≥ 1`, `calculateNewDueDate` returns
`cyclePosition = ((n - 1) mod len) + 1` and `daysOffset = scheme[cyclePosition - 1]`; the
position lies in `1..len` and the offset is an element of the scheme. -/
theorem calculateNewDueDate_cycle {R : Type} (env : Env R) (scheme : List Int) (n : Int)
    (w : World) (hs : scheme ≠ []) (hn : 1 ≤ n) :
    (calculateNewDueDate env scheme n w).1.cyclePosition = (n - 1) % (scheme.length : Int) + 1 ∧
    (calculateNewDueDate env scheme n w).1.daysOffset
      = scheme[((calculateNewDueDate env scheme n w).1.cyclePosition - 1).toNat]? ∧
    1 ≤ (calculateNewDueDate env scheme n w).1.cyclePosition ∧
    (calculateNewDueDate env scheme n w).1.cyclePosition ≤ (scheme.length : Int) ∧
    ∃ d, (calculateNewDueDate env scheme n w).1.daysOffset = some d ∧ d ∈ scheme := by
  have hlen : 0 < scheme.length := List.length_pos.mpr hs
  have hlen' : (0 : Int) < (scheme.length : Int) := by exact_mod_cast hlen
  have hmod : jsMod (n - 1) scheme.length = (n - 1) % (scheme.length : Int) :=
    jsMod_of_nonneg _ _ (by omega)
  have h0 : 0 ≤ (n - 1) % (scheme.length : Int) := Int.emod_nonneg _ (by omega)
  have h1 : (n - 1) % (scheme.length : Int) < scheme.length := Int.emod_lt_of_pos _ hlen'
  have hidx : ((n - 1) % (scheme.length : Int)).toNat < scheme.length := by omega
  have hcast : (((n - 1) % (scheme.length : Int)).toNat : Int) = (n - 1) % (scheme.length : Int) :=
    Int.toNat_of_nonneg h0
  have hoff : jsIndex scheme ((n - 1) % (scheme.length : Int))
      = scheme[((n - 1) % (scheme.length : Int)).toNat]? := by
    rw [← hcast, jsIndex_natCast, hcast]
  rw [calculateNewDueDate_cyclePosition, calculateNewDueDate_daysOffset, hmod, hoff]
  refine ⟨rfl, by simp, by omega, by omega, ?_⟩
  refine ⟨scheme[((n - 1) % (scheme.length : Int)).toNat], ?_, List.getElem_mem _⟩
  exact List.getElem?_eq_getElem hidx

/-- Witness for C1: the configured scheme and the third invoice. -/
theorem calculateNewDueDate_cycle_witness :
    ([1, 3, 5, 7, 9] : List Int) ≠ [] ∧ (1 : Int) ≤ 3 ∧
    (calculateNewDueDate (⟨fun _ => 0, .ok [], .ok [], fun _ => true, true⟩ : Env Int)
      [1, 3, 5, 7, 9] 3 {}).1.daysOffset = some 5 := by
  refine ⟨by decide, by decide, ?_⟩
  have h := (calculateNewDueDate_cycle (⟨fun _ => 0, .ok [], .ok [], fun _ => true, true⟩ : Env Int)
    [1, 3, 5, 7, 9] 3 {} (by decide) (by decide)).2.1
  rw [h]
  decide

/-- C2: the cycle wraps around: invoice `n + len(scheme)` gets the same `cyclePosition` and
the same `daysOffset` as invoice `n`; with the scheme `[1,3,5,7,9]`, invoice 6 gets position 1
and offset 1, the same as invoice 1. -/
theorem calculateNewDueDate_periodic {R : Type} (env env' : Env R) (scheme : List Int) (n : Int)
    (w w' : World) (hs : scheme ≠ []) (hn : 1 ≤ n) :
    ((calculateNewDueDate env scheme (n + scheme.length) w).1.cyclePosition
        = (calculateNewDueDate env' scheme n w').1.cyclePosition ∧
      (calculateNewDueDate env scheme (n + scheme.length) w).1.daysOffset
        = (calculateNewDueDate env' scheme n w').1.daysOffset) ∧
    ((calculateNewDueDate env [1, 3, 5, 7, 9] 6 w).1.cyclePosition = 1 ∧
      (calculateNewDueDate env [1, 3, 5, 7, 9] 6 w).1.daysOffset = some 1 ∧
      (calculateNewDueDate env [1, 3, 5, 7, 9] 1 w).1.cyclePosition = 1 ∧
      (calculateNewDueDate env [1, 3, 5, 7, 9] 1 w).1.daysOffset = some 1) := by
  have hlen : 0 < scheme.length := List.length_pos.mpr hs
  have hstep : jsMod (n + scheme.length - 1) scheme.length = jsMod (n - 1) scheme.length := by
    rw [jsMod_of_nonneg _ _ (by omega), jsMod_of_nonneg _ _ (by omega)]
    have : n + (scheme.length : Int) - 1 = n - 1 + scheme.length := by ring
    rw [this, Int.add_emod_self]
  refine ⟨⟨?_, ?_⟩, ?_⟩
  · rw [calculateNewDueDate_cyclePosition, calculateNewDueDate_cyclePosition, hstep]
  · rw [calculateNewDueDate_daysOffset, calculateNewDueDate_daysOffset, hstep]
  · simp only [calculateNewDueDate_cyclePosition, calculateNewDueDate_daysOffset]
    decide

/-- Witness for C2: the configured scheme and the first invoice. -/
theorem calculateNewDueDate_periodic_witness :
    (calculateNewDueDate (⟨fun _ => 0, .ok [], .ok [], fun _ => true, true⟩ : Env Int)
        [1, 3, 5, 7, 9] (1 + ([1, 3, 5, 7, 9] : List Int).length) {}).1.cyclePosition
      = (calculateNewDueDate (⟨fun _ => 0, .ok [], .ok [], fun _ => true, true⟩ : Env Int)
        [1, 3, 5, 7, 9] 1 {}).1.cyclePosition :=
  (calculateNewDueDate_periodic _ _ [1, 3, 5, 7, 9] 1 {} {} (by decide) (by decide)).1.1

theorem dueMoment_eq (now : Moment) (daysOffset : Option Int) :
    dueMoment now daysOffset
      = Moment.ofLocalMs ((now.localDay + daysOffset.getD 0) * 86400000 + 12 * 3600000) := by
  simp only [dueMoment, Moment.millisecond, Moment.second, Moment.minute,
    Moment.hour, Moment.addDays, Moment.getMillisecond, Moment.getSecond, Moment.getMinute,
    Moment.getHour, Moment.msOfDay, Moment.localMs, Moment.ofLocalMs, Moment.localDay,
    utcOffsetMs, Moment.mk.injEq]
  omega

theorem dueMoment_utcMs (now : Moment) (d : Int) :
    (dueMoment now (some d)).utcMs
      = (now.localDay + d) * 86400000 + 12 * 3600000 - utcOffsetMs := by
  simp only [dueMoment, Option.getD_some, Moment.millisecond, Moment.second, Moment.minute,
    Moment.hour, Moment.addDays, Moment.getMillisecond, Moment.getSecond, Moment.getMinute,
    Moment.getHour, Moment.msOfDay, Moment.localMs, Moment.ofLocalMs, Moment.localDay,
    utcOffsetMs]
  omega

theorem formatHourMinute_noon (m : Moment) (hh : m.getHour = 12) (hm : m.getMinute = 0) :
    m.formatHourMinute = transferTime := by
  unfold Moment.formatHourMinute
  rw [hh, hm]
  decide

/-- C7: the due date computed by `calculateNewDueDate` lies, in the business zone (UTC+4), on
the calendar day `daysOffset` days after the current business-local day, at the configured
transfer time (12:00) with minutes, seconds and milliseconds zero; its epoch-second timestamp
is (business-local midnight of the current day) + daysOffset*86400 + 12*3600. -/
theorem calculateNewDueDate_dueInstant {R : Type} (env : Env R) (scheme : List Int) (n : Int)
    (w : World) (d : Int)
    (hd : (calculateNewDueDate env scheme n w).1.daysOffset = some d) :
    (calculateNewDueDate env scheme n w).1.timestamp
      = (Moment.mk (env.clock w.reads)).startOfDay.unix + d * 86400 + 12 * 3600 ∧
    (Moment.ofUnix (calculateNewDueDate env scheme n w).1.timestamp).localDay
      = (Moment.mk (env.clock w.reads)).localDay + d ∧
    (Moment.ofUnix (calculateNewDueDate env scheme n w).1.timestamp).getHour = 12 ∧
    (Moment.ofUnix (calculateNewDueDate env scheme n w).1.timestamp).getMinute = 0 ∧
    (Moment.ofUnix (calculateNewDueDate env scheme n w).1.timestamp).getSecond = 0 ∧
    (Moment.ofUnix (calculateNewDueDate env scheme n w).1.timestamp).getMillisecond = 0 ∧
    (Moment.ofUnix (calculateNewDueDate env scheme n w).1.timestamp).formatHourMinute
      = transferTime ∧
    (calculateNewDueDate env scheme n w).1.dateString
      = (Moment.ofUnix (calculateNewDueDate env scheme n w).1.timestamp).format := by
  have hoff : jsIndex scheme (jsMod (n - 1) scheme.length) = some d := hd
  have hts : (calculateNewDueDate env scheme n w).1.timestamp
      = (dueMoment ⟨env.clock w.reads⟩ (some d)).unix := by
    show (dueMoment ⟨env.clock w.reads⟩ (jsIndex scheme (jsMod (n - 1) scheme.length))).unix = _
    rw [hoff]
  have hstr : (calculateNewDueDate env scheme n w).1.dateString
      = (dueMoment ⟨env.clock w.reads⟩ (some d)).format := by
    show (dueMoment ⟨env.clock w.reads⟩ (jsIndex scheme (jsMod (n - 1) scheme.length))).format = _
    rw [hoff]
  have hback : Moment.ofUnix (dueMoment ⟨env.clock w.reads⟩ (some d)).unix
      = dueMoment ⟨env.clock w.reads⟩ (some d) := by
    have h := dueMoment_utcMs ⟨env.clock w.reads⟩ d
    simp only [utcOffsetMs] at h
    have h2 : (dueMoment ⟨env.clock w.reads⟩ (some d)).utcMs / 1000 * 1000
        = (dueMoment ⟨env.clock w.reads⟩ (some d)).utcMs := by omega
    exact congrArg Moment.mk h2
  have hu := dueMoment_utcMs ⟨env.clock w.reads⟩ d
  rw [hts, hstr, hback]
  have hH : (dueMoment ⟨env.clock w.reads⟩ (some d)).getHour = 12 := by
    simp only [Moment.getHour, Moment.msOfDay, Moment.localMs, hu, utcOffsetMs]
    omega
  have hM : (dueMoment ⟨env.clock w.reads⟩ (some d)).getMinute = 0 := by
    simp only [Moment.getMinute, Moment.msOfDay, Moment.localMs, hu, utcOffsetMs]
    omega
  refine ⟨?_, ?_, hH, hM, ?_, ?_, formatHourMinute_noon _ hH hM, rfl⟩
  · simp only [Moment.unix, hu, Moment.startOfDay, Moment.ofLocalMs, Moment.msOfDay,
      Moment.localMs, Moment.localDay, utcOffsetMs]
    omega
  · simp only [Moment.localDay, Moment.localMs, hu, utcOffsetMs]
    omega
  · simp only [Moment.getSecond, Moment.msOfDay, Moment.localMs, hu, utcOffsetMs]
    omega
  · simp only [Moment.getMillisecond, Moment.msOfDay, Moment.localMs, hu, utcOffsetMs]
    omega

/-- Witness for C7: the second invoice of the configured scheme (offset 3), processed at
2024-11-04 21:00:00.123 UTC, is due at 2024-11-08 12:00:00 business time. -/
theorem calculateNewDueDate_dueInstant_witness :
    (calculateNewDueDate (⟨fun _ => 1730754000123, .ok [], .ok [], fun _ => true, true⟩ : Env Int)
        [1, 3, 5, 7, 9] 2 {}).1.daysOffset = some 3 ∧
    (calculateNewDueDate (⟨fun _ => 1730754000123, .ok [], .ok [], fun _ => true, true⟩ : Env Int)
        [1, 3, 5, 7, 9] 2 {}).1.dateString = "2024-11-08 12:00:00" ∧
    (calculateNewDueDate (⟨fun _ => 1730754000123, .ok [], .ok [], fun _ => true, true⟩ : Env Int)
        [1, 3, 5, 7, 9] 2 {}).1.timestamp
      = (Moment.mk 1730754000123).startOfDay.unix + 3 * 86400 + 12 * 3600 :=
  ⟨by decide, by decide,
    (calculateNewDueDate_dueInstant
      (⟨fun _ => 1730754000123, .ok [], .ok [], fun _ => true, true⟩ : Env Int)
      [1, 3, 5, 7, 9] 2 {} 3 (by decide)).1⟩

/-! ## Facts about the transfer loop -/

theorem transferLoop_cons_ok {R : Type} (cfg : Config R) (env : Env R) (invoice : Invoice R)
    (rest : List (Invoice R)) (i : Nat) (acc : List (TransferInfo R)) (w : World)
    (h : env.updateOk w.updateCalls.length = true) :
    transferLoop cfg env (invoice :: rest) i acc w
      = transferLoop cfg env rest (i + 1) (acc ++ [transferAt cfg env i invoice w.reads])
          (worldAt cfg env i invoice w true) := by
  simp [transferLoop, calculateNewDueDate, updateInvoiceDueDate, getCurrentMoment, h,
    transferAt, worldAt]

theorem transferLoop_cons_fail {R : Type} (cfg : Config R) (env : Env R) (invoice : Invoice R)
    (rest : List (Invoice R)) (i : Nat) (acc : List (TransferInfo R)) (w : World)
    (h : env.updateOk w.updateCalls.length = false) :
    transferLoop cfg env (invoice :: rest) i acc w
      = transferLoop cfg env rest (i + 1) acc (worldAt cfg env i invoice w false) := by
  simp [transferLoop, calculateNewDueDate, updateInvoiceDueDate, getCurrentMoment, h, worldAt]

theorem worldAt_updateCalls_length {R : Type} (cfg : Config R) (env : Env R) (i : Nat)
    (invoice : Invoice R) (w : World) (ok : Bool) :
    (worldAt cfg env i invoice w ok).updateCalls.length = w.updateCalls.length + 1 := by
  simp [worldAt]

theorem worldAt_reads_le {R : Type} (cfg : Config R) (env : Env R) (i : Nat)
    (invoice : Invoice R) (w : World) (ok : Bool) :
    w.reads ≤ (worldAt cfg env i invoice w ok).reads := by
  cases ok
  · simp [worldAt]
  · simp only [worldAt, if_true]
    omega

/-- Every invoice of the batch gets exactly one update call, in input order. -/
theorem transferLoop_updateCalls {R : Type} (cfg : Config R) (env : Env R)
    (invs : List (Invoice R)) (i : Nat) (acc : List (TransferInfo R)) (w : World) :
    (transferLoop cfg env invs i acc w).2.updateCalls.map Prod.fst
      = w.updateCalls.map Prod.fst ++ invs.map (fun inv => inv.id) := by
  induction invs generalizing i acc w with
  | nil => simp [transferLoop]
  | cons inv rest ih =>
    cases h : env.updateOk w.updateCalls.length
    · rw [transferLoop_cons_fail cfg env inv rest i acc w h, ih]
      simp [worldAt]
    · rw [transferLoop_cons_ok cfg env inv rest i acc w h, ih]
      simp [worldAt]

theorem range_filter_length_succ (p : Nat → Bool) (n : Nat) :
    ((List.range (n + 1)).filter p).length
      = (if p 0 then 1 else 0) + ((List.range n).filter (fun j => p (j + 1))).length := by
  rw [List.range_succ_eq_map, List.filter_cons, List.filter_map]
  cases p 0
  · simp [Function.comp_def]
  · simp [Function.comp_def]
    omega

/-- The number of transfers is the number of successful updates. -/
theorem transferLoop_length {R : Type} (cfg : Config R) (env : Env R)
    (invs : List (Invoice R)) (i : Nat) (acc : List (TransferInfo R)) (w : World) :
    (transferLoop cfg env invs i acc w).1.length
      = acc.length + ((List.range invs.length).filter
          (fun j => env.updateOk (w.updateCalls.length + j))).length := by
  induction invs generalizing i acc w with
  | nil => simp [transferLoop]
  | cons inv rest ih =>
    rw [List.length_cons, range_filter_length_succ]
    have hshift : ∀ ok : Bool,
        (fun j => env.updateOk ((worldAt cfg env i inv w ok).updateCalls.length + j))
          = (fun j => env.updateOk (w.updateCalls.length + (j + 1))) := by
      intro ok
      funext j
      rw [worldAt_updateCalls_length]
      congr 1
      omega
    cases h : env.updateOk w.updateCalls.length
    · rw [transferLoop_cons_fail cfg env inv rest i acc w h, ih, hshift]
      simp [h]
    · rw [transferLoop_cons_ok cfg env inv rest i acc w h, ih, hshift]
      simp [h]
      omega

/-- Soundness of the loop: a transfer in the result was already in the accumulator or is the
transfer of an invoice of the batch whose update succeeded. -/
theorem transferLoop_mem {R : Type} (cfg : Config R) (env : Env R)
    (invs : List (Invoice R)) (i : Nat) (acc : List (TransferInfo R)) (w : World)
    (t : TransferInfo R) (ht : t ∈ (transferLoop cfg env invs i acc w).1) :
    t ∈ acc ∨ ∃ j inv r, invs[j]? = some inv ∧
      env.updateOk (w.updateCalls.length + j) = true ∧ w.reads ≤ r ∧
      t = transferAt cfg env (i + j) inv r := by
  induction invs generalizing i acc w with
  | nil => left; simpa [transferLoop] using ht
  | cons inv rest ih =>
    cases h : env.updateOk w.updateCalls.length
    · rw [transferLoop_cons_fail cfg env inv rest i acc w h] at ht
      rcases ih _ _ _ ht with hacc | ⟨j, inv', r, hj, hok, hr, heq⟩
      · exact Or.inl hacc
      · right
        refine ⟨j + 1, inv', r, by simpa using hj, ?_, ?_, ?_⟩
        · rw [worldAt_updateCalls_length] at hok
          rw [← hok]; congr 1; omega
        · exact le_trans (worldAt_reads_le cfg env i inv w false) hr
        · rw [heq]; congr 1; omega
    · rw [transferLoop_cons_ok cfg env inv rest i acc w h] at ht
      rcases ih _ _ _ ht with hacc | ⟨j, inv', r, hj, hok, hr, heq⟩
      · rcases List.mem_append.mp hacc with hacc | hnew
        · exact Or.inl hacc
        · right
          refine ⟨0, inv, w.reads, by simp, by simpa using h, le_refl _, ?_⟩
          simpa using hnew
      · right
        refine ⟨j + 1, inv', r, by simpa using hj, ?_, ?_, ?_⟩
        · rw [worldAt_updateCalls_length] at hok
          rw [← hok]; congr 1; omega
        · exact le_trans (worldAt_reads_le cfg env i inv w true) hr
        · rw [heq]; congr 1; omega

theorem transferLoop_acc_subset {R : Type} (cfg : Config R) (env : Env R)
    (invs : List (Invoice R)) (i : Nat) (acc : List (TransferInfo R)) (w : World)
    (t : TransferInfo R) (ht : t ∈ acc) : t ∈ (transferLoop cfg env invs i acc w).1 := by
  induction invs generalizing i acc w with
  | nil => simpa [transferLoop] using ht
  | cons inv rest ih =>
    cases h : env.updateOk w.updateCalls.length
    · rw [transferLoop_cons_fail cfg env inv rest i acc w h]
      exact ih _ _ _ ht
    · rw [transferLoop_cons_ok cfg env inv rest i acc w h]
      exact ih _ _ _ (List.mem_append_left _ ht)

/-- Completeness of the loop: every invoice whose update succeeds gets its transfer. -/
theorem transferLoop_complete {R : Type} (cfg : Config R) (env : Env R)
    (invs : List (Invoice R)) (i : Nat) (acc : List (TransferInfo R)) (w : World)
    (j : Nat) (inv : Invoice R) (hj : invs[j]? = some inv)
    (hok : env.updateOk (w.updateCalls.length + j) = true) :
    ∃ r, w.reads ≤ r ∧ transferAt cfg env (i + j) inv r ∈ (transferLoop cfg env invs i acc w).1 := by
  induction invs generalizing i acc w j with
  | nil => simp at hj
  | cons inv0 rest ih =>
    cases j with
    | zero =>
      have h : env.updateOk w.updateCalls.length = true := by simpa using hok
      have hinv : inv0 = inv := by simpa using hj
      subst hinv
      rw [transferLoop_cons_ok cfg env inv0 rest i acc w h]
      exact ⟨w.reads, le_refl _, transferLoop_acc_subset _ _ _ _ _ _ _ (by simp)⟩
    | succ j =>
      have hj' : rest[j]? = some inv := by simpa using hj
      have hidx : i + (j + 1) = i + 1 + j := by omega
      cases h : env.updateOk w.updateCalls.length
      · rw [transferLoop_cons_fail cfg env inv0 rest i acc w h, hidx]
        obtain ⟨r, hr, hmem⟩ := ih (i + 1) acc (worldAt cfg env i inv0 w false) j hj'
          (by rw [worldAt_updateCalls_length, ← hok]; congr 1; omega)
        exact ⟨r, le_trans (worldAt_reads_le cfg env i inv0 w false) hr, hmem⟩
      · rw [transferLoop_cons_ok cfg env inv0 rest i acc w h, hidx]
        obtain ⟨r, hr, hmem⟩ := ih (i + 1) (acc ++ [transferAt cfg env i inv0 w.reads])
          (worldAt cfg env i inv0 w true) j hj'
          (by rw [worldAt_updateCalls_length, ← hok]; congr 1; omega)
        exact ⟨r, le_trans (worldAt_reads_le cfg env i inv0 w true) hr, hmem⟩

theorem transferLoop_pairwise {R : Type} (cfg : Config R) (env : Env R)
    (invs : List (Invoice R)) (i : Nat) (acc : List (TransferInfo R)) (w : World)
    (hacc : (acc.map (fun t => t.invoiceNumber)).Pairwise (fun a b => a < b))
    (hbound : ∀ t ∈ acc, t.invoiceNumber ≤ (i : Int)) :
    ((transferLoop cfg env invs i acc w).1.map (fun t => t.invoiceNumber)).Pairwise
      (fun a b => a < b) := by
  induction invs generalizing i acc w with
  | nil => simpa [transferLoop] using hacc
  | cons inv rest ih =>
    cases h : env.updateOk w.updateCalls.length
    · rw [transferLoop_cons_fail cfg env inv rest i acc w h]
      refine ih _ _ _ hacc ?_
      intro t ht
      have := hbound t ht
      push_cast
      omega
    · rw [transferLoop_cons_ok cfg env inv rest i acc w h]
      refine ih _ _ _ ?_ ?_
      · rw [List.map_append, List.pairwise_append]
        refine ⟨hacc, by simp, ?_⟩
        intro a ha b hb
        obtain ⟨t, ht, rfl⟩ := List.mem_map.mp ha
        have hb' : b = (i : Int) + 1 := by simpa [transferAt] using hb
        have := hbound t ht
        omega
      · intro t ht
        rcases List.mem_append.mp ht with ht | ht
        · have := hbound t ht
          push_cast
          omega
        · have ht' : t = transferAt cfg env i inv w.reads := by simpa using ht
          rw [ht']
          simp [transferAt]

theorem transferLoop_sublist {R : Type} (cfg : Config R) (env : Env R)
    (invs : List (Invoice R)) (i : Nat) (acc : List (TransferInfo R)) (w : World) :
    ∃ l : List String,
      (transferLoop cfg env invs i acc w).1.map (fun t => t.invoiceId)
        = acc.map (fun t => t.invoiceId) ++ l ∧
      l.Sublist (invs.map (fun inv => inv.id)) := by
  induction invs generalizing i acc w with
  | nil => exact ⟨[], by simp [transferLoop], List.Sublist.refl _⟩
  | cons inv rest ih =>
    cases h : env.updateOk w.updateCalls.length
    · rw [transferLoop_cons_fail cfg env inv rest i acc w h]
      obtain ⟨l, hl, hsub⟩ := ih (i + 1) acc (worldAt cfg env i inv w false)
      exact ⟨l, hl, by simpa using List.Sublist.cons inv.id hsub⟩
    · rw [transferLoop_cons_ok cfg env inv rest i acc w h]
      obtain ⟨l, hl, hsub⟩ := ih (i + 1) (acc ++ [transferAt cfg env i inv w.reads])
        (worldAt cfg env i inv w true)
      refine ⟨inv.id :: l, ?_, by simpa using List.Sublist.cons₂ inv.id hsub⟩
      rw [hl]
      simp [transferAt]

theorem transferLoop_all_ok {R : Type} (cfg : Config R) (env : Env R)
    (invs : List (Invoice R)) (i : Nat) (acc : List (TransferInfo R)) (w : World)
    (hall : ∀ j, j < invs.length → env.updateOk (w.updateCalls.length + j) = true) :
    (transferLoop cfg env invs i acc w).1.map (fun t => t.invoiceId)
      = acc.map (fun t => t.invoiceId) ++ invs.map (fun inv => inv.id) := by
  induction invs generalizing i acc w with
  | nil => simp [transferLoop]
  | cons inv rest ih =>
    have h : env.updateOk w.updateCalls.length = true := by
      simpa using hall 0 (by simp)
    rw [transferLoop_cons_ok cfg env inv rest i acc w h, ih]
    · simp [transferAt]
    · intro j hj
      rw [worldAt_updateCalls_length]
      have := hall (j + 1) (by simpa using hj)
      rw [← this]
      congr 1
      omega

theorem transferLoop_prefix {R : Type} (cfg : Config R) (env : Env R)
    (invs : List (Invoice R)) (i : Nat) (acc : List (TransferInfo R)) (w : World) :
    ∃ l, (transferLoop cfg env invs i acc w).1 = acc ++ l := by
  induction invs generalizing i acc w with
  | nil => exact ⟨[], by simp [transferLoop]⟩
  | cons inv rest ih =>
    cases h : env.updateOk w.updateCalls.length
    · rw [transferLoop_cons_fail cfg env inv rest i acc w h]
      exact ih _ _ _
    · rw [transferLoop_cons_ok cfg env inv rest i acc w h]
      obtain ⟨l, hl⟩ := ih (i + 1) (acc ++ [transferAt cfg env i inv w.reads])
        (worldAt cfg env i inv w true)
      exact ⟨transferAt cfg env i inv w.reads :: l, by rw [hl]; simp⟩

/-- When no update fails, the transfer of the `j`-th invoice stands at position `j`. -/
theorem transferLoop_all_ok_get {R : Type} (cfg : Config R) (env : Env R)
    (invs : List (Invoice R)) (i : Nat) (acc : List (TransferInfo R)) (w : World)
    (hall : ∀ j, env.updateOk j = true) (j : Nat) (inv : Invoice R)
    (hj : invs[j]? = some inv) :
    ∃ r, (transferLoop cfg env invs i acc w).1[acc.length + j]?
      = some (transferAt cfg env (i + j) inv r) := by
  induction invs generalizing i acc w j with
  | nil => simp at hj
  | cons inv0 rest ih =>
    rw [transferLoop_cons_ok cfg env inv0 rest i acc w (hall _)]
    cases j with
    | zero =>
      have hinv : inv0 = inv := by simpa using hj
      subst hinv
      obtain ⟨l, hl⟩ := transferLoop_prefix cfg env rest (i + 1)
        (acc ++ [transferAt cfg env i inv0 w.reads]) (worldAt cfg env i inv0 w true)
      refine ⟨w.reads, ?_⟩
      rw [hl, List.append_assoc, Nat.add_zero,
        List.getElem?_append_right (Nat.le_refl _), Nat.sub_self]
      simp
    | succ j =>
      have hj' : rest[j]? = some inv := by simpa using hj
      obtain ⟨r, hr⟩ := ih (i + 1) (acc ++ [transferAt cfg env i inv0 w.reads])
        (worldAt cfg env i inv0 w true) j hj'
      refine ⟨r, ?_⟩
      have h1 : acc.length + (j + 1) = (acc ++ [transferAt cfg env i inv0 w.reads]).length + j := by
        simp
        omega
      have h2 : i + (j + 1) = i + 1 + j := by omega
      rw [h1, h2]
      exact hr

/-! ## The claims about `processInvoiceTransfers` -/

/-- C3: partial-failure tolerance of `processInvoiceTransfers`.  For every batch and every
assignment of success or failure to the update calls: an update is attempted for every invoice
of the batch, in order; the number of transfers is the batch size minus the number of failed
updates; every transfer is the transfer of an invoice of the batch whose update succeeded;
every invoice whose update succeeded has its transfer and an invoice whose update failed has
none; and the `invoiceNumber`, `daysOffset` and `cyclePosition` recorded for a successfully
updated invoice are those of the transfer of the same invoice (at its position) in the run in
which no update fails. -/
theorem processInvoiceTransfers_partial_failure {R : Type} (cfg : Config R) (env : Env R)
    (invs : List (Invoice R)) (w : World) :
    (processInvoiceTransfers cfg env invs w).2.updateCalls.map Prod.fst
      = w.updateCalls.map Prod.fst ++ invs.map (fun inv => inv.id) ∧
    (processInvoiceTransfers cfg env invs w).1.length
      = invs.length - (List.range invs.length).countP
          (fun j => !env.updateOk (w.updateCalls.length + j)) ∧
    (processInvoiceTransfers cfg env invs w).1.length
      + (List.range invs.length).countP (fun j => !env.updateOk (w.updateCalls.length + j))
      = invs.length ∧
    (∀ t ∈ (processInvoiceTransfers cfg env invs w).1,
      ∃ t' ∈ (processInvoiceTransfers cfg { env with updateOk := fun _ => true } invs w).1,
        t'.invoiceId = t.invoiceId ∧ t'.invoiceNumber = t.invoiceNumber ∧
        t'.daysOffset = t.daysOffset ∧ t'.cyclePosition = t.cyclePosition) ∧
    (∀ t ∈ (processInvoiceTransfers cfg env invs w).1,
      ∃ j inv, invs[j]? = some inv ∧ env.updateOk (w.updateCalls.length + j) = true ∧
        t.invoiceId = inv.id ∧ t.invoiceNumber = (j : Int) + 1) ∧
    (∀ j inv, invs[j]? = some inv → env.updateOk (w.updateCalls.length + j) = true →
      ∃ t ∈ (processInvoiceTransfers cfg env invs w).1,
        t.invoiceId = inv.id ∧ t.invoiceNumber = (j : Int) + 1 ∧
        ∃ t', (processInvoiceTransfers cfg { env with updateOk := fun _ => true } invs w).1[j]?
            = some t' ∧
          t'.invoiceId = inv.id ∧ t'.invoiceNumber = t.invoiceNumber ∧
          t'.daysOffset = t.daysOffset ∧ t'.cyclePosition = t.cyclePosition) ∧
    (∀ j inv, invs[j]? = some inv → env.updateOk (w.updateCalls.length + j) = false →
      ∀ t ∈ (processInvoiceTransfers cfg env invs w).1, t.invoiceNumber ≠ (j : Int) + 1) := by
  have hlen : (processInvoiceTransfers cfg env invs w).1.length
      + (List.range invs.length).countP (fun j => !env.updateOk (w.updateCalls.length + j))
      = invs.length := by
    unfold processInvoiceTransfers
    rw [transferLoop_length, List.length_nil, Nat.zero_add, ← List.countP_eq_length_filter]
    have h := List.length_eq_countP_add_countP
      (fun j => env.updateOk (w.updateCalls.length + j)) (List.range invs.length)
    rw [List.length_range] at h
    have hfun : (fun j => !env.updateOk (w.updateCalls.length + j))
        = (fun a => decide ¬env.updateOk (w.updateCalls.length + a) = true) := by
      funext j
      cases env.updateOk (w.updateCalls.length + j) <;> simp
    rw [hfun]
    exact h.symm
  have hsound : ∀ t ∈ (processInvoiceTransfers cfg env invs w).1,
      ∃ j inv, invs[j]? = some inv ∧ env.updateOk (w.updateCalls.length + j) = true ∧
        t.invoiceId = inv.id ∧ t.invoiceNumber = (j : Int) + 1 := by
    intro t ht
    rcases transferLoop_mem cfg env invs 0 [] w t ht with hnil | ⟨j, inv, r, hj, hok, _, heq⟩
    · simp at hnil
    · exact ⟨j, inv, hj, hok, by rw [heq]; simp [transferAt], by rw [heq]; simp [transferAt]⟩
  refine ⟨transferLoop_updateCalls cfg env invs 0 [] w, by omega, hlen, ?_, hsound, ?_, ?_⟩
  · intro t ht
    rcases transferLoop_mem cfg env invs 0 [] w t ht with hnil | ⟨j, inv, r, hj, _, _, heq⟩
    · simp at hnil
    · obtain ⟨r', _, hmem⟩ := transferLoop_complete cfg { env with updateOk := fun _ => true }
        invs 0 [] w j inv hj rfl
      exact ⟨_, hmem, by rw [heq]; simp [transferAt]⟩
  · intro j inv hj hok
    obtain ⟨r, _, hmem⟩ := transferLoop_complete cfg env invs 0 [] w j inv hj hok
    obtain ⟨r', hget⟩ := transferLoop_all_ok_get cfg { env with updateOk := fun _ => true }
      invs 0 [] w (fun _ => rfl) j inv hj
    have hget' : (processInvoiceTransfers cfg { env with updateOk := fun _ => true } invs w).1[j]?
        = some (transferAt cfg { env with updateOk := fun _ => true } (0 + j) inv r') := by
      simpa using hget
    exact ⟨_, hmem, by simp [transferAt], by simp [transferAt], _, hget',
      by simp [transferAt]⟩
  · intro j inv _ hfail t ht hnum
    obtain ⟨j', _, _, hok', _, hnum'⟩ := hsound t ht
    have hjj : j' = j := by omega
    rw [hjj, hfail] at hok'
    exact Bool.false_ne_true hok'

/-- C4: scheduling is order-preserving.  The transfers come in increasing `invoiceNumber`,
their invoice ids form a sublist of the ids of the batch, each transfer's `invoiceNumber` is
the 1-indexed position of its invoice in the batch, and when every update succeeds the two
lists have equal length and agree position by position. -/
theorem processInvoiceTransfers_order {R : Type} (cfg : Config R) (env : Env R)
    (invs : List (Invoice R)) (w : World) :
    ((processInvoiceTransfers cfg env invs w).1.map (fun t => t.invoiceNumber)).Pairwise
      (fun a b => a < b) ∧
    ((processInvoiceTransfers cfg env invs w).1.map (fun t => t.invoiceId)).Sublist
      (invs.map (fun inv => inv.id)) ∧
    (∀ t ∈ (processInvoiceTransfers cfg env invs w).1,
      1 ≤ t.invoiceNumber ∧ t.invoiceNumber ≤ (invs.length : Int) ∧
      (invs[(t.invoiceNumber - 1).toNat]?).map (fun inv => inv.id) = some t.invoiceId) ∧
    ((∀ j, j < invs.length → env.updateOk (w.updateCalls.length + j) = true) →
      (processInvoiceTransfers cfg env invs w).1.length = invs.length ∧
      ∀ i : Nat, ((processInvoiceTransfers cfg env invs w).1[i]?).map (fun t => t.invoiceId)
        = (invs[i]?).map (fun inv => inv.id)) := by
  refine ⟨?_, ?_, ?_, ?_⟩
  · exact transferLoop_pairwise cfg env invs 0 [] w (by simp) (by simp)
  · obtain ⟨l, hl, hsub⟩ := transferLoop_sublist cfg env invs 0 [] w
    unfold processInvoiceTransfers
    rw [hl]
    simpa using hsub
  · intro t ht
    rcases transferLoop_mem cfg env invs 0 [] w t ht with hnil | ⟨j, inv, r, hj, _, _, heq⟩
    · simp at hnil
    · have hjlt : j < invs.length := by
        by_contra hge
        rw [List.getElem?_eq_none (by omega)] at hj
        simp at hj
      have hnum : t.invoiceNumber = (j : Int) + 1 := by rw [heq]; simp [transferAt]
      refine ⟨by omega, by omega, ?_⟩
      have hidx : (t.invoiceNumber - 1).toNat = j := by omega
      rw [hidx, hj, heq]
      simp [transferAt]
  · intro hall
    have hids := transferLoop_all_ok cfg env invs 0 [] w hall
    have hids' : (processInvoiceTransfers cfg env invs w).1.map (fun t => t.invoiceId)
        = invs.map (fun inv => inv.id) := by
      unfold processInvoiceTransfers
      rw [hids]
      simp
    refine ⟨?_, ?_⟩
    · have := congrArg List.length hids'
      simpa using this
    · intro i
      have := congrArg (fun l => l[i]?) hids'
      simpa using this

/-! ## The volume snapshot -/

theorem chargeCounts_iff {R : Type} (cfg : Config R) (charge : Charge R) :
    chargeCounts cfg charge = true
      ↔ charge.status = "succeeded" ∧ toLowerCase charge.currency = toLowerCase cfg.accountCurrency := by
  simp [chargeCounts, serviceCurrency, and_comm]

/-- The loop adds up, from left to right, the amounts of the charges that count and
appends their entries. -/
theorem grossVolumeLoop_eq {R : Type} [Add R] [Div R] [OfNat R 100] (cfg : Config R)
    (charges : List (Charge R)) (grossVolume : R) (processedCharges : List (ProcessedCharge R)) :
    grossVolumeLoop cfg charges grossVolume processedCharges
      = (((charges.filter (chargeCounts cfg)).map (fun c => c.amount / 100)).foldl
            (fun acc a => acc + a) grossVolume,
          processedCharges ++ (charges.filter (chargeCounts cfg)).map processedOf) := by
  induction charges generalizing grossVolume processedCharges with
  | nil => simp [grossVolumeLoop]
  | cons c rest ih =>
    cases h : chargeCounts cfg c
    · simp [grossVolumeLoop, h, ih]
    · simp [grossVolumeLoop, h, ih, processedOf]

theorem getDailyGrossVolume_ok {R : Type} [Zero R] [Add R] [Div R] [OfNat R 100]
    (cfg : Config R) (env : Env R) (w : World) (charges : List (Charge R))
    (h : env.chargesList = .ok charges) :
    getDailyGrossVolume cfg env w
      = (.ok { volume := ((charges.filter (chargeCounts cfg)).map
                  (fun c => c.amount / 100)).foldl (fun acc a => acc + a) 0
               currency := cfg.accountCurrency
               charges := (charges.filter (chargeCounts cfg)).map processedOf
               dateRange := (getCurrentDayRange env w).1 },
          { w with reads := w.reads + 1, chargeFetches := w.chargeFetches + 1 }) := by
  simp [getDailyGrossVolume, h, grossVolumeLoop_eq, getCurrentDayRange, getCurrentMoment]

theorem getDailyGrossVolume_world {R : Type} [Zero R] [Add R] [Div R] [OfNat R 100]
    (cfg : Config R) (env : Env R) (w : World) :
    (getDailyGrossVolume cfg env w).2
      = { w with reads := w.reads + 1, chargeFetches := w.chargeFetches + 1 } := by
  cases h : env.chargesList <;>
    simp [getDailyGrossVolume, h, getCurrentDayRange, getCurrentMoment]

/-- C6: currency and status filtering in `getDailyGrossVolume`.  The returned volume is the
sum, in input order, of `amount / 100` over exactly the charges whose status is `succeeded`
and whose currency equals the account currency up to letter case, and the returned list holds
exactly these charges in input order; a charge of another currency or status changes neither
(wherever it stands in the input).  Over exact numbers the volume is the sum of the list. -/
theorem getDailyGrossVolume_filter {R : Type} [Zero R] [Add R] [Div R] [OfNat R 100]
    (cfg : Config R) (env : Env R) (w : World) (charges : List (Charge R))
    (h : env.chargesList = .ok charges) :
    (∃ vd, (getDailyGrossVolume cfg env w).1 = .ok vd ∧
      vd.volume = ((charges.filter (fun c => decide (c.status = "succeeded" ∧
          toLowerCase c.currency = toLowerCase cfg.accountCurrency))).map
            (fun c => c.amount / 100)).foldl (fun acc a => acc + a) 0 ∧
      vd.charges = (charges.filter (fun c => decide (c.status = "succeeded" ∧
          toLowerCase c.currency = toLowerCase cfg.accountCurrency))).map processedOf ∧
      vd.charges.map (fun p => p.id) = (charges.filter (fun c => decide (c.status = "succeeded" ∧
          toLowerCase c.currency = toLowerCase cfg.accountCurrency))).map (fun c => c.id)) ∧
    (∀ (before after : List (Charge R)) (c : Charge R),
      (c.status ≠ "succeeded" ∨ toLowerCase c.currency ≠ toLowerCase cfg.accountCurrency) →
      (getDailyGrossVolume cfg { env with chargesList := .ok (before ++ c :: after) } w).1
        = (getDailyGrossVolume cfg { env with chargesList := .ok (before ++ after) } w).1) ∧
    (∀ (cfgQ : Config ℚ) (envQ : Env ℚ) (cs : List (Charge ℚ)), envQ.chargesList = .ok cs →
      ∃ vd, (getDailyGrossVolume cfgQ envQ w).1 = .ok vd ∧
        vd.volume = ((cs.filter (fun c => decide (c.status = "succeeded" ∧
          toLowerCase c.currency = toLowerCase cfgQ.accountCurrency))).map (fun c => c.amount / 100)).sum) := by
  have hpred : ∀ {S : Type} (cfgS : Config S), (chargeCounts cfgS : Charge S → Bool)
      = (fun c => decide (c.status = "succeeded" ∧
          toLowerCase c.currency = toLowerCase cfgS.accountCurrency)) := by
    intro S cfgS
    funext c
    rw [Bool.eq_iff_iff, chargeCounts_iff]
    simp
  refine ⟨?_, ?_, ?_⟩
  · rw [getDailyGrossVolume_ok cfg env w charges h, ← hpred]
    exact ⟨_, rfl, rfl, rfl, by simp [processedOf]⟩
  · intro before after c hc
    have hno : chargeCounts cfg c = false := by
      rw [Bool.eq_false_iff, Ne, chargeCounts_iff]
      tauto
    rw [getDailyGrossVolume_ok cfg _ w (before ++ c :: after) rfl,
      getDailyGrossVolume_ok cfg _ w (before ++ after) rfl]
    simp [List.filter_append, List.filter_cons, hno, getCurrentDayRange, getCurrentMoment]
  · intro cfgQ envQ cs hcs
    rw [getDailyGrossVolume_ok cfgQ envQ w cs hcs, ← hpred]
    exact ⟨_, rfl, (List.sum_eq_foldl).symm⟩

/-- Witness for C6: of three charges (AED succeeded, USD succeeded, AED failed) only the
first is kept. -/
theorem getDailyGrossVolume_filter_witness :
    ∃ vd, (getDailyGrossVolume ({ grossVolumeLimit := 30 } : Config ℚ)
        { clock := fun _ => 1730754000000
          chargesList := .ok [⟨"ch_1", 2999, "AED", "succeeded", 1730754000⟩,
            ⟨"ch_2", 5000, "usd", "succeeded", 1730754000⟩,
            ⟨"ch_3", 100, "aed", "failed", 1730754000⟩]
          invoicesList := .ok []
          updateOk := fun _ => true
          writeOk := true } {}).1 = .ok vd ∧
      vd.charges.map (fun p => p.id) = ["ch_1"] := by
  obtain ⟨vd, h1, _, _, h4⟩ := (getDailyGrossVolume_filter ({ grossVolumeLimit := 30 } : Config ℚ)
    { clock := fun _ => 1730754000000
      chargesList := .ok [⟨"ch_1", 2999, "AED", "succeeded", 1730754000⟩,
        ⟨"ch_2", 5000, "usd", "succeeded", 1730754000⟩,
        ⟨"ch_3", 100, "aed", "failed", 1730754000⟩]
      invoicesList := .ok []
      updateOk := fun _ => true
      writeOk := true } {} _ rfl).1
  refine ⟨vd, h1, ?_⟩
  rw [h4]
  decide

/-! ## The run -/

theorem getUnpaidInvoices_world {R : Type} [Div R] [OfNat R 100] (cfg : Config R) (env : Env R)
    (w : World) :
    (getUnpaidInvoices cfg env w).2 = { w with invoiceFetches := w.invoiceFetches + 1 } := by
  cases h : env.invoicesList <;> simp [getUnpaidInvoices, h]

theorem transferLoop_invoiceFetches {R : Type} (cfg : Config R) (env : Env R)
    (invs : List (Invoice R)) (i : Nat) (acc : List (TransferInfo R)) (w : World) :
    (transferLoop cfg env invs i acc w).2.invoiceFetches = w.invoiceFetches := by
  induction invs generalizing i acc w with
  | nil => simp [transferLoop]
  | cons inv rest ih =>
    cases h : env.updateOk w.updateCalls.length
    · rw [transferLoop_cons_fail cfg env inv rest i acc w h, ih]
      simp [worldAt]
    · rw [transferLoop_cons_ok cfg env inv rest i acc w h, ih]
      simp [worldAt]

theorem saveTransferSession_fields {R : Type} (env : Env R) (w : World) :
    (saveTransferSession env w).invoiceFetches = w.invoiceFetches ∧
    (saveTransferSession env w).updateCalls = w.updateCalls := by
  cases h : env.writeOk <;> simp [saveTransferSession, getCurrentMoment, h]

/-- The closed gate: the run stops after the volume snapshot. -/
theorem checkAndProcessInvoices_closed {R : Type} [LinearOrder R] [Zero R] [Add R] [Div R]
    [OfNat R 100] (cfg : Config R) (env : Env R) (w w1 : World) (vd : VolumeData R)
    (hv : getDailyGrossVolume cfg env (getCurrentMoment env w).2 = (.ok vd, w1))
    (hlt : vd.volume < cfg.grossVolumeLimit) :
    checkAndProcessInvoices cfg env w
      = (.ok { processed := false
               reason := some "Volume below limit"
               sessionData := none
               transferredInvoices := none
               volumeData := vd }, w1) := by
  simp only [getCurrentMoment] at hv
  simp [checkAndProcessInvoices, getCurrentMoment, hv, hlt]

/-- The open gate with a non-empty batch: the batch is processed and the session record is
assembled from the snapshot and the transfers. -/
theorem checkAndProcessInvoices_open {R : Type} [LinearOrder R] [Zero R] [Add R] [Div R]
    [OfNat R 100] (cfg : Config R) (env : Env R) (w w1 w2 : World) (vd : VolumeData R)
    (invs : List (Invoice R))
    (hv : getDailyGrossVolume cfg env (getCurrentMoment env w).2 = (.ok vd, w1))
    (hge : cfg.grossVolumeLimit ≤ vd.volume)
    (hinv : getUnpaidInvoices cfg env w1 = (.ok invs, w2))
    (hne : invs ≠ []) :
    ∃ r sd w3, checkAndProcessInvoices cfg env w = (.ok r, w3) ∧
      r.processed = true ∧ r.reason = none ∧ r.volumeData = vd ∧
      r.sessionData = some sd ∧
      r.transferredInvoices = some (processInvoiceTransfers cfg env invs w2).1 ∧
      sd.transfers = (processInvoiceTransfers cfg env invs w2).1 ∧
      sd.processing.totalUnpaidInvoices = invs.length ∧
      sd.processing.totalTransferred = (processInvoiceTransfers cfg env invs w2).1.length ∧
      sd.processing.delayScheme = cfg.delayScheme ∧
      sd.trigger.dailyVolume = vd.volume ∧ sd.trigger.volumeLimit = cfg.grossVolumeLimit ∧
      sd.volumeDetails = vd ∧
      w3.updateCalls = (processInvoiceTransfers cfg env invs w2).2.updateCalls ∧
      w3.invoiceFetches = w2.invoiceFetches := by
  simp only [getCurrentMoment] at hv
  have hlen : invs.length ≠ 0 := fun h => hne (List.length_eq_zero.mp h)
  have hnlt : ¬ vd.volume < cfg.grossVolumeLimit := not_lt.mpr hge
  have hsave := saveTransferSession_fields env
    { reads := (processInvoiceTransfers cfg env invs w2).2.reads + 1 + 1
      chargeFetches := (processInvoiceTransfers cfg env invs w2).2.chargeFetches
      invoiceFetches := (processInvoiceTransfers cfg env invs w2).2.invoiceFetches
      updateCalls := (processInvoiceTransfers cfg env invs w2).2.updateCalls
      savedFiles := (processInvoiceTransfers cfg env invs w2).2.savedFiles }
  have hfetch : (processInvoiceTransfers cfg env invs w2).2.invoiceFetches = w2.invoiceFetches :=
    transferLoop_invoiceFetches cfg env invs 0 [] w2
  simp only [checkAndProcessInvoices, getCurrentMoment, hv, hnlt, if_false, hinv, hlen]
  refine ⟨_, _, _, rfl, rfl, rfl, rfl, rfl, rfl, rfl, rfl, rfl, rfl, rfl, rfl, rfl, ?_, ?_⟩
  · exact hsave.2
  · rw [hsave.1, hfetch]

/-- Whether the run asks for the invoices is decided by the gate alone. -/
theorem checkAndProcessInvoices_invoiceFetches {R : Type} [LinearOrder R] [Zero R] [Add R]
    [Div R] [OfNat R 100] (cfg : Config R) (env : Env R) (w w1 : World) (vd : VolumeData R)
    (hv : getDailyGrossVolume cfg env (getCurrentMoment env w).2 = (.ok vd, w1)) :
    (checkAndProcessInvoices cfg env w).2.invoiceFetches
      = if vd.volume < cfg.grossVolumeLimit then w.invoiceFetches else w.invoiceFetches + 1 := by
  have hw1 : w1.invoiceFetches = w.invoiceFetches := by
    have h := getDailyGrossVolume_world cfg env (getCurrentMoment env w).2
    rw [hv] at h
    simp only [getCurrentMoment] at h
    rw [h]
  by_cases hlt : vd.volume < cfg.grossVolumeLimit
  · rw [checkAndProcessInvoices_closed cfg env w w1 vd hv hlt, if_pos hlt, hw1]
  · rw [if_neg hlt]
    have hw2 := getUnpaidInvoices_world cfg env w1
    rcases hinv : getUnpaidInvoices cfg env w1 with ⟨res, w2⟩
    rw [hinv] at hw2
    simp only at hw2
    cases res with
    | error e =>
      simp only [getCurrentMoment] at hv
      simp [checkAndProcessInvoices, getCurrentMoment, hv, hlt, hinv, hw2, hw1]
    | ok invs =>
      by_cases hne : invs = []
      · simp only [getCurrentMoment] at hv
        simp [checkAndProcessInvoices, getCurrentMoment, hv, hlt, hinv, hne, hw2, hw1]
      · obtain ⟨r, sd, w3, hrun, _, _, _, _, _, _, _, _, _, _, _, _, _, hf⟩ :=
          checkAndProcessInvoices_open cfg env w w1 w2 vd invs hv (not_lt.mp hlt) hinv hne
        rw [hrun]
        simp only
        rw [hf, hw2]
        simp [hw1]

theorem getDailyGrossVolume_updateCalls {R : Type} [Zero R] [Add R] [Div R] [OfNat R 100]
    (cfg : Config R) (env : Env R) (w w1 : World) (vd : VolumeData R)
    (hv : getDailyGrossVolume cfg env (getCurrentMoment env w).2 = (.ok vd, w1)) :
    w1.invoiceFetches = w.invoiceFetches ∧ w1.updateCalls = w.updateCalls ∧
    w1.savedFiles = w.savedFiles := by
  have h := getDailyGrossVolume_world cfg env (getCurrentMoment env w).2
  rw [hv] at h
  simp only [getCurrentMoment] at h
  rw [h]
  exact ⟨rfl, rfl, rfl⟩

theorem getProcessingSummary_limitReached {R : Type} [LinearOrder R] [Zero R] [Add R] [Div R]
    [OfNat R 100] (cfg : Config R) (env : Env R) (w w1 w3 : World) (vd : VolumeData R)
    (s : Summary R) (hv : getDailyGrossVolume cfg env w = (.ok vd, w1))
    (hs : getProcessingSummary cfg env w = (.ok s, w3)) :
    s.limitReached = decide (cfg.grossVolumeLimit ≤ vd.volume) ∧ s.dailyVolume = vd.volume ∧
    s.volumeLimit = cfg.grossVolumeLimit := by
  rcases hinv : getUnpaidInvoices cfg env w1 with ⟨res, w2⟩
  cases res with
  | error e => simp [getProcessingSummary, hv, hinv] at hs
  | ok invs =>
    simp only [getProcessingSummary, hv, hinv, getCurrentMoment, Prod.mk.injEq,
      Except.ok.injEq] at hs
    rw [← hs.1]
    exact ⟨rfl, rfl, rfl⟩

theorem getProcessingSummary_returns {R : Type} [LinearOrder R] [Zero R] [Add R] [Div R]
    [OfNat R 100] (cfg : Config R) (env : Env R) (w w1 w2 : World) (vd : VolumeData R)
    (invs : List (Invoice R)) (hv : getDailyGrossVolume cfg env w = (.ok vd, w1))
    (hinv : getUnpaidInvoices cfg env w1 = (.ok invs, w2)) :
    ∃ s w3, getProcessingSummary cfg env w = (.ok s, w3) := by
  simp [getProcessingSummary, hv, hinv, getCurrentMoment]

theorem checkAndProcessInvoices_updateCalls {R : Type} [LinearOrder R] [Zero R] [Add R]
    [Div R] [OfNat R 100] (cfg : Config R) (env : Env R) (w w1 w2 : World) (vd : VolumeData R)
    (invs : List (Invoice R))
    (hv : getDailyGrossVolume cfg env (getCurrentMoment env w).2 = (.ok vd, w1))
    (hinv : getUnpaidInvoices cfg env w1 = (.ok invs, w2)) :
    (checkAndProcessInvoices cfg env w).2.updateCalls.map Prod.fst
      = w.updateCalls.map Prod.fst
        ++ (if vd.volume < cfg.grossVolumeLimit then [] else invs.map (fun inv => inv.id)) := by
  have hw1 := (getDailyGrossVolume_updateCalls cfg env w w1 vd hv).2.1
  have hw2 : w2.updateCalls = w1.updateCalls := by
    have h := getUnpaidInvoices_world cfg env w1
    rw [hinv] at h
    simp only at h
    rw [h]
  by_cases hlt : vd.volume < cfg.grossVolumeLimit
  · rw [checkAndProcessInvoices_closed cfg env w w1 vd hv hlt, if_pos hlt]
    simp [hw1]
  · rw [if_neg hlt]
    by_cases hne : invs = []
    · simp only [getCurrentMoment] at hv
      simp [checkAndProcessInvoices, getCurrentMoment, hv, hlt, hinv, hne, hw2, hw1]
    · obtain ⟨r, sd, w3, hrun, _, _, _, _, _, _, _, _, _, _, _, _, hu, _⟩ :=
        checkAndProcessInvoices_open cfg env w w1 w2 vd invs hv (not_lt.mp hlt) hinv hne
      rw [hrun]
      simp only
      rw [hu]
      unfold processInvoiceTransfers
      rw [transferLoop_updateCalls, hw2, hw1]

/-! ## The claims about the gate and the run -/

/-- C5: the gate boundary is inclusive.  With a volume snapshot `vd`, `checkAndProcessInvoices`
goes on to fetch the invoices (and then issues an update for each unpaid invoice) if and only
if `vd.volume ≥ grossVolumeLimit`, and `getProcessingSummary` reports `limitReached = true`
under the same condition on its snapshot; a volume equal to the threshold opens the gate, a
volume 0.01 below it leaves the gate closed. -/
theorem gate_boundary_inclusive {R : Type} [LinearOrder R] [Zero R] [Add R] [Div R] [OfNat R 100]
    (cfg : Config R) (env : Env R) (w w1 v v1 : World) (vd vd' : VolumeData R)
    (hv : getDailyGrossVolume cfg env (getCurrentMoment env w).2 = (.ok vd, w1))
    (hv' : getDailyGrossVolume cfg env v = (.ok vd', v1)) :
    ((checkAndProcessInvoices cfg env w).2.invoiceFetches = w.invoiceFetches + 1
      ↔ cfg.grossVolumeLimit ≤ vd.volume) ∧
    ((checkAndProcessInvoices cfg env w).2.invoiceFetches = w.invoiceFetches
      ↔ vd.volume < cfg.grossVolumeLimit) ∧
    (∀ invs w2, getUnpaidInvoices cfg env w1 = (.ok invs, w2) →
      (checkAndProcessInvoices cfg env w).2.updateCalls.map Prod.fst
        = w.updateCalls.map Prod.fst
          ++ (if cfg.grossVolumeLimit ≤ vd.volume then invs.map (fun inv => inv.id) else [])) ∧
    (∀ s v3, getProcessingSummary cfg env v = (.ok s, v3) →
      (s.limitReached = true ↔ cfg.grossVolumeLimit ≤ vd'.volume) ∧
      s.dailyVolume = vd'.volume ∧ s.volumeLimit = cfg.grossVolumeLimit) ∧
    (∀ invs v2, getUnpaidInvoices cfg env v1 = (.ok invs, v2) →
      ∃ s v3, getProcessingSummary cfg env v = (.ok s, v3)) ∧
    (vd.volume = cfg.grossVolumeLimit →
      (checkAndProcessInvoices cfg env w).2.invoiceFetches = w.invoiceFetches + 1) ∧
    (∀ (cfgQ : Config ℚ) (envQ : Env ℚ) (u u1 : World) (q : VolumeData ℚ),
      getDailyGrossVolume cfgQ envQ (getCurrentMoment envQ u).2 = (.ok q, u1) →
      q.volume = cfgQ.grossVolumeLimit - 1 / 100 →
      (checkAndProcessInvoices cfgQ envQ u).2.invoiceFetches = u.invoiceFetches ∧
      ∀ s u0 u3, getDailyGrossVolume cfgQ envQ u0 = (.ok q, u1) →
        getProcessingSummary cfgQ envQ u0 = (.ok s, u3) → s.limitReached = false) := by
  have hf := checkAndProcessInvoices_invoiceFetches cfg env w w1 vd hv
  refine ⟨?_, ?_, ?_, ?_, ?_, ?_, ?_⟩
  · rw [hf]
    by_cases hlt : vd.volume < cfg.grossVolumeLimit
    · simp [hlt]
    · simp [hlt, not_lt.mp hlt]
  · rw [hf]
    by_cases hlt : vd.volume < cfg.grossVolumeLimit
    · simp [hlt]
    · simp [hlt]
  · intro invs w2 hinv
    rw [checkAndProcessInvoices_updateCalls cfg env w w1 w2 vd invs hv hinv]
    by_cases hlt : vd.volume < cfg.grossVolumeLimit
    · simp [hlt]
    · simp [hlt, not_lt.mp hlt]
  · intro s v3 hs
    obtain ⟨h1, h2, h3⟩ := getProcessingSummary_limitReached cfg env v v1 v3 vd' s hv' hs
    exact ⟨by rw [h1]; simp, h2, h3⟩
  · intro invs v2 hinv
    exact getProcessingSummary_returns cfg env v v1 v2 vd' invs hv' hinv
  · intro heq
    rw [hf, if_neg (by rw [heq]; exact lt_irrefl _)]
  · intro cfgQ envQ u u1 q hq hcent
    have hlt : q.volume < cfgQ.grossVolumeLimit := by rw [hcent]; linarith
    refine ⟨?_, ?_⟩
    · rw [checkAndProcessInvoices_invoiceFetches cfgQ envQ u u1 q hq, if_pos hlt]
    · intro s u0 u3 hq0 hs
      rw [(getProcessingSummary_limitReached cfgQ envQ u0 u1 u3 q s hq0 hs).1]
      simpa using hlt

theorem scenarioB_volume :
    ((([⟨"ch_1", 2999, "aed", "succeeded", 1730754000⟩,
        ⟨"ch_2", 5000, "usd", "succeeded", 1730754000⟩,
        ⟨"ch_3", 100, "aed", "failed", 1730754000⟩] : List (Charge ℚ)).filter
      (chargeCounts scenarioConfig)).map (fun c => c.amount / 100)).foldl
        (fun acc a => acc + a) 0 = 2999 / 100 := by
  have h1 : chargeCounts scenarioConfig ⟨"ch_1", 2999, "aed", "succeeded", 1730754000⟩ = true := by
    decide
  have h2 : chargeCounts scenarioConfig ⟨"ch_2", 5000, "usd", "succeeded", 1730754000⟩ = false := by
    decide
  have h3 : chargeCounts scenarioConfig ⟨"ch_3", 100, "aed", "failed", 1730754000⟩ = false := by
    decide
  simp [List.filter, h1, h2, h3]

theorem scenarioD_volume :
    ((([⟨"ch_1", 3000, "aed", "succeeded", 1730754000⟩] : List (Charge ℚ)).filter
      (chargeCounts scenarioConfig)).map (fun c => c.amount / 100)).foldl
        (fun acc a => acc + a) 0 = 30 := by
  have h1 : chargeCounts scenarioConfig ⟨"ch_1", 3000, "aed", "succeeded", 1730754000⟩ = true := by
    decide
  simp [List.filter, h1]
  norm_num

/-- Witness for C5: in scenario D the volume equals the threshold and the invoices are
fetched. -/
theorem gate_boundary_inclusive_witness :
    (checkAndProcessInvoices scenarioConfig scenarioD {}).2.invoiceFetches = 1 :=
  (gate_boundary_inclusive scenarioConfig scenarioD {} _ _ _ _ _
    (getDailyGrossVolume_ok scenarioConfig scenarioD _ _ rfl)
    (getDailyGrossVolume_ok scenarioConfig scenarioD {} _ rfl)).1.mpr
    (le_of_eq scenarioD_volume.symm)

/-- C9: session counts under partial failure.  When the gate is open and the fetched batch
`invs` is not empty, the run returns `processed = true` whatever updates fail; the session
record has `totalUnpaidInvoices = N`, `totalTransferred` = number of transfers = number of
successful updates (so at most `N`), and the transfers are exactly those of the invoices whose
update succeeded. -/
theorem checkAndProcessInvoices_partial_counts {R : Type} [LinearOrder R] [Zero R] [Add R]
    [Div R] [OfNat R 100] (cfg : Config R) (env : Env R) (w w1 w2 : World) (vd : VolumeData R)
    (invs : List (Invoice R))
    (hv : getDailyGrossVolume cfg env (getCurrentMoment env w).2 = (.ok vd, w1))
    (hge : cfg.grossVolumeLimit ≤ vd.volume)
    (hinv : getUnpaidInvoices cfg env w1 = (.ok invs, w2))
    (hne : invs ≠ []) :
    ∃ r sd w3, checkAndProcessInvoices cfg env w = (.ok r, w3) ∧
      r.processed = true ∧ r.sessionData = some sd ∧
      r.transferredInvoices = some sd.transfers ∧
      sd.transfers = (processInvoiceTransfers cfg env invs w2).1 ∧
      sd.processing.totalUnpaidInvoices = invs.length ∧
      sd.processing.totalTransferred = sd.transfers.length ∧
      sd.transfers.length
        = (List.range invs.length).countP (fun j => env.updateOk (w.updateCalls.length + j)) ∧
      sd.processing.totalTransferred ≤ sd.processing.totalUnpaidInvoices ∧
      (∀ t ∈ sd.transfers, ∃ j inv, invs[j]? = some inv ∧
        env.updateOk (w.updateCalls.length + j) = true ∧
        t.invoiceId = inv.id ∧ t.invoiceNumber = (j : Int) + 1) ∧
      (∀ j inv, invs[j]? = some inv → env.updateOk (w.updateCalls.length + j) = true →
        ∃ t ∈ sd.transfers, t.invoiceId = inv.id ∧ t.invoiceNumber = (j : Int) + 1) := by
  obtain ⟨r, sd, w3, hrun, hp, _, _, hsd, htr, hT, hN, hcount, _, _, _, _, _, _⟩ :=
    checkAndProcessInvoices_open cfg env w w1 w2 vd invs hv hge hinv hne
  have hw1 := (getDailyGrossVolume_updateCalls cfg env w w1 vd hv).2.1
  have hw2 : w2.updateCalls = w.updateCalls := by
    have h := getUnpaidInvoices_world cfg env w1
    rw [hinv] at h
    simp only at h
    rw [h]
    exact hw1
  have hlen : sd.transfers.length
      = (List.range invs.length).countP (fun j => env.updateOk (w.updateCalls.length + j)) := by
    rw [hT]
    unfold processInvoiceTransfers
    rw [transferLoop_length, List.length_nil, Nat.zero_add, hw2, List.countP_eq_length_filter]
  have hle : sd.transfers.length ≤ invs.length := by
    rw [hlen]
    have := List.countP_le_length (fun j => env.updateOk (w.updateCalls.length + j))
      (l := List.range invs.length)
    simpa using this
  refine ⟨r, sd, w3, hrun, hp, hsd, by rw [htr, hT], hT, hN, by rw [hcount, hT], hlen,
    by rw [hcount, hN, ← hT]; exact hle, ?_, ?_⟩
  · intro t ht
    rw [hT] at ht
    rcases transferLoop_mem cfg env invs 0 [] w2 t ht with hnil | ⟨j, inv, _, hj, hok, _, heq⟩
    · simp at hnil
    · rw [hw2] at hok
      exact ⟨j, inv, hj, hok, by rw [heq]; simp [transferAt], by rw [heq]; simp [transferAt]⟩
  · intro j inv hj hok
    rw [← hw2] at hok
    obtain ⟨rd, _, hmem⟩ := transferLoop_complete cfg env invs 0 [] w2 j inv hj hok
    rw [hT]
    exact ⟨_, hmem, by simp [transferAt], by simp [transferAt]⟩

/-- Witness for C9 (scenario D): two invoices, the second update fails; the run is processed
with one transfer, of the first invoice, `totalTransferred = 1`, `totalUnpaidInvoices = 2`. -/
theorem checkAndProcessInvoices_partial_counts_witness :
    ∃ r sd w3, checkAndProcessInvoices scenarioConfig scenarioD {} = (.ok r, w3) ∧
      r.processed = true ∧ r.sessionData = some sd ∧
      sd.transfers.map (fun t => t.invoiceId) = ["in_1"] ∧
      sd.processing.totalTransferred = 1 ∧ sd.processing.totalUnpaidInvoices = 2 := by
  obtain ⟨r, sd, w3, hrun, hp, hsd, _, hT, hN, hcount, _, _, _, _⟩ :=
    checkAndProcessInvoices_partial_counts scenarioConfig scenarioD {} _ _ _ twoUnpaid
      (getDailyGrossVolume_ok scenarioConfig scenarioD _ _ rfl)
      (le_of_eq scenarioD_volume.symm) rfl (List.cons_ne_nil _ _)
  refine ⟨r, sd, w3, hrun, hp, hsd, ?_, ?_, ?_⟩
  · rw [hT]
    decide
  · rw [hcount, hT]
    decide
  · rw [hN]
    rfl

/-- C10 (amended): the closed gate is a no-op.  For every volume snapshot with
`volume < grossVolumeLimit`, `checkAndProcessInvoices` returns `processed = false` with reason
`"Volume below limit"` and the snapshot, fetches no invoice, issues no update call and writes
no session file. -/
theorem checkAndProcessInvoices_closed_gate {R : Type} [LinearOrder R] [Zero R] [Add R]
    [Div R] [OfNat R 100] (cfg : Config R) (env : Env R) (w w1 : World) (vd : VolumeData R)
    (hv : getDailyGrossVolume cfg env (getCurrentMoment env w).2 = (.ok vd, w1))
    (hlt : vd.volume < cfg.grossVolumeLimit) :
    ∃ r w3, checkAndProcessInvoices cfg env w = (.ok r, w3) ∧
      r.processed = false ∧ r.reason = some "Volume below limit" ∧ r.volumeData = vd ∧
      r.sessionData = none ∧ r.transferredInvoices = none ∧
      w3.invoiceFetches = w.invoiceFetches ∧ w3.updateCalls = w.updateCalls ∧
      w3.savedFiles = w.savedFiles := by
  obtain ⟨h1, h2, h3⟩ := getDailyGrossVolume_updateCalls cfg env w w1 vd hv
  exact ⟨_, _, checkAndProcessInvoices_closed cfg env w w1 vd hv hlt, rfl, rfl, rfl, rfl, rfl,
    h1, h2, h3⟩

/-- Witness for C10 (scenario B): threshold 30, volume 29.99. -/
theorem checkAndProcessInvoices_closed_gate_witness :
    ∃ r w3, checkAndProcessInvoices scenarioConfig scenarioB {} = (.ok r, w3) ∧
      r.processed = false ∧ r.reason = some "Volume below limit" ∧
      r.volumeData.volume = 2999 / 100 ∧ w3.invoiceFetches = 0 ∧ w3.updateCalls = [] := by
  obtain ⟨r, w3, hrun, hp, hr, hvd, _, _, hf, hu, _⟩ :=
    checkAndProcessInvoices_closed_gate scenarioConfig scenarioB {} _ _
      (getDailyGrossVolume_ok scenarioConfig scenarioB _ _ rfl)
      (by rw [scenarioB_volume]; show (2999 : ℚ) / 100 < 30; norm_num)
  exact ⟨r, w3, hrun, hp, hr, by rw [hvd]; exact scenarioB_volume, hf, hu⟩

/-- Counterexample for C10 as stated: in scenario B (threshold 30, volume 29.99) the gate is
closed and the reason returned is not the string `"volume below limit"`. -/
theorem checkAndProcessInvoices_closed_reason_counterexample :
    ∃ r w3, checkAndProcessInvoices scenarioConfig scenarioB {} = (.ok r, w3) ∧
      r.volumeData.volume = 2999 / 100 ∧ r.volumeData.volume < scenarioConfig.grossVolumeLimit ∧
      r.processed = false ∧ r.reason ≠ some "volume below limit" := by
  have hlt : (2999 : ℚ) / 100 < scenarioConfig.grossVolumeLimit := by
    show (2999 : ℚ) / 100 < 30
    norm_num
  refine ⟨_, _, checkAndProcessInvoices_closed scenarioConfig scenarioB {} _ _
    (getDailyGrossVolume_ok scenarioConfig scenarioB _ _ rfl)
    (by rw [scenarioB_volume]; exact hlt), scenarioB_volume, ?_, rfl, by decide⟩
  show _ < scenarioConfig.grossVolumeLimit
  rw [scenarioB_volume]
  exact hlt

/-! ## The anchoring of the due dates -/

theorem transferLoop_reads_le {R : Type} (cfg : Config R) (env : Env R)
    (invs : List (Invoice R)) (i : Nat) (acc : List (TransferInfo R)) (w : World) :
    w.reads ≤ (transferLoop cfg env invs i acc w).2.reads := by
  induction invs generalizing i acc w with
  | nil => simp [transferLoop]
  | cons inv rest ih =>
    cases h : env.updateOk w.updateCalls.length
    · rw [transferLoop_cons_fail cfg env inv rest i acc w h]
      exact le_trans (worldAt_reads_le cfg env i inv w false) (ih _ _ _)
    · rw [transferLoop_cons_ok cfg env inv rest i acc w h]
      exact le_trans (worldAt_reads_le cfg env i inv w true) (ih _ _ _)

/-- A transfer of the result that was not in the accumulator was built from a clock reading
made during the loop. -/
theorem transferLoop_mem_reads {R : Type} (cfg : Config R) (env : Env R)
    (invs : List (Invoice R)) (i : Nat) (acc : List (TransferInfo R)) (w : World)
    (t : TransferInfo R) (ht : t ∈ (transferLoop cfg env invs i acc w).1) :
    t ∈ acc ∨ ∃ k inv r, w.reads ≤ r ∧ r < (transferLoop cfg env invs i acc w).2.reads ∧
      t = transferAt cfg env k inv r := by
  induction invs generalizing i acc w with
  | nil => left; simpa [transferLoop] using ht
  | cons inv rest ih =>
    cases h : env.updateOk w.updateCalls.length
    · rw [transferLoop_cons_fail cfg env inv rest i acc w h] at ht ⊢
      rcases ih _ _ _ ht with hacc | ⟨k, inv', r, hr, hlt, heq⟩
      · exact Or.inl hacc
      · exact Or.inr ⟨k, inv', r,
          le_trans (worldAt_reads_le cfg env i inv w false) hr, hlt, heq⟩
    · rw [transferLoop_cons_ok cfg env inv rest i acc w h] at ht ⊢
      rcases ih _ _ _ ht with hacc | ⟨k, inv', r, hr, hlt, heq⟩
      · rcases List.mem_append.mp hacc with hacc | hnew
        · exact Or.inl hacc
        · right
          refine ⟨i, inv, w.reads, le_refl _, ?_, by simpa using hnew⟩
          have h1 := transferLoop_reads_le cfg env rest (i + 1)
            (acc ++ [transferAt cfg env i inv w.reads]) (worldAt cfg env i inv w true)
          have h2 : (worldAt cfg env i inv w true).reads = w.reads + 1 + 1 := by
            simp [worldAt]
          omega
      · exact Or.inr ⟨k, inv', r,
          le_trans (worldAt_reads_le cfg env i inv w true) hr, hlt, heq⟩

theorem transferAt_newDueDate {R : Type} (cfg : Config R) (env : Env R) (k : Nat)
    (inv : Invoice R) (r : Nat) :
    (transferAt cfg env k inv r).newDueDate
      = dueDateOn cfg.delayScheme (Moment.mk (env.clock r)).localDay
          (transferAt cfg env k inv r).cyclePosition := by
  simp only [transferAt, dueDateOn, dueMoment_eq, add_sub_cancel_right]

theorem transferAt_cyclePosition_range {R : Type} (cfg : Config R) (env : Env R) (k : Nat)
    (inv : Invoice R) (r : Nat) (hs : cfg.delayScheme ≠ []) :
    ∃ c, c < cfg.delayScheme.length ∧ (transferAt cfg env k inv r).cyclePosition = (c : Int) + 1 := by
  have hlen : 0 < cfg.delayScheme.length := List.length_pos.mpr hs
  have hlen' : (0 : Int) < (cfg.delayScheme.length : Int) := by exact_mod_cast hlen
  have hmod : jsMod ((k : Int) + 1 - 1) cfg.delayScheme.length
      = ((k : Int) + 1 - 1) % (cfg.delayScheme.length : Int) := jsMod_of_nonneg _ _ (by omega)
  have h0 : 0 ≤ ((k : Int) + 1 - 1) % (cfg.delayScheme.length : Int) :=
    Int.emod_nonneg _ (by omega)
  have h1 : ((k : Int) + 1 - 1) % (cfg.delayScheme.length : Int) < cfg.delayScheme.length :=
    Int.emod_lt_of_pos _ hlen'
  refine ⟨(((k : Int) + 1 - 1) % (cfg.delayScheme.length : Int)).toNat, by omega, ?_⟩
  simp only [transferAt, hmod]
  omega

/-- The schedule that the loop assigns does not look at the invoices: two batches of the
same length get the same numbers, positions, offsets and due dates. -/
theorem transferLoop_invoice_independent {R : Type} (cfg : Config R) (env : Env R)
    (invs invs' : List (Invoice R)) (hlen : invs.length = invs'.length) (i : Nat)
    (acc acc' : List (TransferInfo R)) (w w' : World)
    (hacc : acc.map (fun t => (t.invoiceNumber, t.cyclePosition, t.daysOffset, t.newDueDate))
      = acc'.map (fun t => (t.invoiceNumber, t.cyclePosition, t.daysOffset, t.newDueDate)))
    (hr : w.reads = w'.reads) (hu : w.updateCalls.length = w'.updateCalls.length) :
    (transferLoop cfg env invs i acc w).1.map
        (fun t => (t.invoiceNumber, t.cyclePosition, t.daysOffset, t.newDueDate))
      = (transferLoop cfg env invs' i acc' w').1.map
        (fun t => (t.invoiceNumber, t.cyclePosition, t.daysOffset, t.newDueDate)) := by
  induction invs generalizing invs' i acc acc' w w' with
  | nil =>
    cases invs' with
    | nil => simpa [transferLoop] using hacc
    | cons inv' rest' => simp at hlen
  | cons inv rest ih =>
    cases invs' with
    | nil => simp at hlen
    | cons inv' rest' =>
      have hlen' : rest.length = rest'.length := by simpa using hlen
      cases h : env.updateOk w.updateCalls.length
      · have h' : env.updateOk w'.updateCalls.length = false := by rw [← hu]; exact h
        rw [transferLoop_cons_fail cfg env inv rest i acc w h,
          transferLoop_cons_fail cfg env inv' rest' i acc' w' h']
        refine ih rest' hlen' _ _ _ _ _ hacc ?_ ?_
        · simp [worldAt, hr]
        · simp [worldAt, hu]
      · have h' : env.updateOk w'.updateCalls.length = true := by rw [← hu]; exact h
        rw [transferLoop_cons_ok cfg env inv rest i acc w h,
          transferLoop_cons_ok cfg env inv' rest' i acc' w' h']
        refine ih rest' hlen' _ _ _ _ _ ?_ ?_ ?_
        · rw [List.map_append, List.map_append, hacc, hr]
          simp [transferAt]
        · simp [worldAt, hr]
        · simp [worldAt, hu]

/-- C8 (amended): `calculateNewDueDate` reads the clock for every invoice.  The new due date
of a transfer is determined by its `cyclePosition` and the business-local day of a clock
reading made during the run, and by no field of the invoice: replacing the batch by any other
batch of the same length gives the same numbers, positions, offsets and due dates.  When all
clock readings of the run fall on the same business-local day, two transfers with equal
`cyclePosition` have equal `newDueDate`, and (for a non-empty scheme) the run produces at most
`len(scheme)` distinct new due dates. -/
theorem processInvoiceTransfers_dueDates {R : Type} (cfg : Config R) (env : Env R)
    (invs : List (Invoice R)) (w : World) :
    (∀ t ∈ (processInvoiceTransfers cfg env invs w).1,
      ∃ r, w.reads ≤ r ∧ r < (processInvoiceTransfers cfg env invs w).2.reads ∧
        t.newDueDate
          = dueDateOn cfg.delayScheme (Moment.mk (env.clock r)).localDay t.cyclePosition) ∧
    (∀ invs' : List (Invoice R), invs'.length = invs.length →
      (processInvoiceTransfers cfg env invs' w).1.map
          (fun t => (t.invoiceNumber, t.cyclePosition, t.daysOffset, t.newDueDate))
        = (processInvoiceTransfers cfg env invs w).1.map
          (fun t => (t.invoiceNumber, t.cyclePosition, t.daysOffset, t.newDueDate))) ∧
    (∀ day : Int,
      (∀ k, w.reads ≤ k → k < (processInvoiceTransfers cfg env invs w).2.reads →
        (Moment.mk (env.clock k)).localDay = day) →
      (∀ t ∈ (processInvoiceTransfers cfg env invs w).1,
        t.newDueDate = dueDateOn cfg.delayScheme day t.cyclePosition) ∧
      (∀ t1 ∈ (processInvoiceTransfers cfg env invs w).1,
        ∀ t2 ∈ (processInvoiceTransfers cfg env invs w).1,
          t1.cyclePosition = t2.cyclePosition → t1.newDueDate = t2.newDueDate) ∧
      (cfg.delayScheme ≠ [] →
        ((processInvoiceTransfers cfg env invs w).1.map (fun t => t.newDueDate)).toFinset.card
          ≤ cfg.delayScheme.length)) := by
  have hread : ∀ t ∈ (processInvoiceTransfers cfg env invs w).1,
      ∃ k inv r, w.reads ≤ r ∧ r < (processInvoiceTransfers cfg env invs w).2.reads ∧
        t = transferAt cfg env k inv r := by
    intro t ht
    rcases transferLoop_mem_reads cfg env invs 0 [] w t ht with hnil | h
    · simp at hnil
    · exact h
  refine ⟨?_, ?_, ?_⟩
  · intro t ht
    obtain ⟨k, inv, r, hr, hlt, heq⟩ := hread t ht
    exact ⟨r, hr, hlt, by rw [heq]; exact transferAt_newDueDate cfg env k inv r⟩
  · intro invs' hlen
    exact transferLoop_invoice_independent cfg env invs' invs hlen 0 [] [] w w rfl rfl rfl
  · intro day hday
    have hall : ∀ t ∈ (processInvoiceTransfers cfg env invs w).1,
        t.newDueDate = dueDateOn cfg.delayScheme day t.cyclePosition := by
      intro t ht
      obtain ⟨k, inv, r, hr, hlt, heq⟩ := hread t ht
      rw [heq, transferAt_newDueDate, hday r hr hlt]
    refine ⟨hall, ?_, ?_⟩
    · intro t1 h1 t2 h2 hcp
      rw [hall t1 h1, hall t2 h2, hcp]
    · intro hs
      have hsub : ((processInvoiceTransfers cfg env invs w).1.map
            (fun t => t.newDueDate)).toFinset
          ⊆ (Finset.range cfg.delayScheme.length).image
              (fun c : Nat => dueDateOn cfg.delayScheme day ((c : Int) + 1)) := by
        intro x hx
        rw [List.mem_toFinset, List.mem_map] at hx
        obtain ⟨t, ht, rfl⟩ := hx
        obtain ⟨k, inv, r, _, _, heq⟩ := hread t ht
        obtain ⟨c, hc, hcp⟩ := transferAt_cyclePosition_range cfg env k inv r hs
        rw [Finset.mem_image]
        exact ⟨c, Finset.mem_range.mpr hc, by rw [hall t ht, heq, hcp]⟩
      calc ((processInvoiceTransfers cfg env invs w).1.map
              (fun t => t.newDueDate)).toFinset.card
          ≤ ((Finset.range cfg.delayScheme.length).image
              (fun c : Nat => dueDateOn cfg.delayScheme day ((c : Int) + 1))).card :=
            Finset.card_le_card hsub
        _ ≤ (Finset.range cfg.delayScheme.length).card := Finset.card_image_le
        _ = cfg.delayScheme.length := Finset.card_range _

/-- Witness for C8 (amended): six invoices, every update succeeds and all twelve clock
readings fall on 2024-11-05 business time.  Invoices 1 and 6 share `cyclePosition = 1` and the
due date 2024-11-06; the run produces five distinct due dates. -/
theorem processInvoiceTransfers_dueDates_witness :
    (processInvoiceTransfers scenarioConfig scenarioB sixUnpaid {}).1.map
        (fun t => (t.invoiceNumber, t.cyclePosition, t.newDueDate))
      = [(1, 1, "2024-11-06 12:00:00"), (2, 2, "2024-11-08 12:00:00"),
         (3, 3, "2024-11-10 12:00:00"), (4, 4, "2024-11-12 12:00:00"),
         (5, 5, "2024-11-14 12:00:00"), (6, 1, "2024-11-06 12:00:00")] ∧
    (∀ t1 ∈ (processInvoiceTransfers scenarioConfig scenarioB sixUnpaid {}).1,
      ∀ t2 ∈ (processInvoiceTransfers scenarioConfig scenarioB sixUnpaid {}).1,
        t1.cyclePosition = t2.cyclePosition → t1.newDueDate = t2.newDueDate) ∧
    ((processInvoiceTransfers scenarioConfig scenarioB sixUnpaid {}).1.map
        (fun t => t.newDueDate)).toFinset.card ≤ scenarioConfig.delayScheme.length := by
  have hreads : (processInvoiceTransfers scenarioConfig scenarioB sixUnpaid {}).2.reads = 12 := by
    decide
  have hday : ∀ k, ({} : World).reads ≤ k →
      k < (processInvoiceTransfers scenarioConfig scenarioB sixUnpaid {}).2.reads →
      (Moment.mk (scenarioB.clock k)).localDay = 20032 := by
    intro k _ hk
    rw [hreads] at hk
    interval_cases k <;> decide
  have h := (processInvoiceTransfers_dueDates scenarioConfig scenarioB sixUnpaid {}).2.2
    20032 hday
  exact ⟨by decide, h.2.1, h.2.2 (by decide)⟩

/-- Counterexample for C8 as stated: a run of six invoices that starts half a second before
business-local midnight.  Invoices 1 and 6 both have `cyclePosition = 1` but are due on
different days, and the run produces six distinct due dates with a scheme of length five. -/
theorem processInvoiceTransfers_anchor_counterexample :
    (processInvoiceTransfers scenarioConfig midnightRun sixUnpaid {}).1.map
        (fun t => (t.invoiceNumber, t.cyclePosition, t.newDueDate))
      = [(1, 1, "2024-11-06 12:00:00"), (2, 2, "2024-11-08 12:00:00"),
         (3, 3, "2024-11-11 12:00:00"), (4, 4, "2024-11-13 12:00:00"),
         (5, 5, "2024-11-15 12:00:00"), (6, 1, "2024-11-07 12:00:00")] ∧
    scenarioConfig.delayScheme.length
      < ((processInvoiceTransfers scenarioConfig midnightRun sixUnpaid {}).1.map
          (fun t => t.newDueDate)).toFinset.card := by
  refine ⟨by decide, ?_⟩
  have h : (processInvoiceTransfers scenarioConfig midnightRun sixUnpaid {}).1.map
      (fun t => t.newDueDate)
      = ["2024-11-06 12:00:00", "2024-11-08 12:00:00", "2024-11-11 12:00:00",
         "2024-11-13 12:00:00", "2024-11-15 12:00:00", "2024-11-07 12:00:00"] := by
    decide
  rw [h]
  decide

/-! ## The business day -/

theorem formatDate_of_localDay (m1 m2 : Moment) (h : m1.localDay = m2.localDay) :
    m1.formatDate = m2.formatDate := by
  simp only [Moment.formatDate, Moment.getYear, Moment.getMonth, Moment.getDate, h]

theorem startOfDay_localDay (m : Moment) : m.startOfDay.localDay = m.localDay := by
  simp only [Moment.startOfDay, Moment.ofLocalMs, Moment.localDay, Moment.localMs,
    Moment.msOfDay, utcOffsetMs]
  omega

theorem endOfDay_localDay (m : Moment) : m.endOfDay.localDay = m.localDay := by
  simp only [Moment.endOfDay, Moment.ofLocalMs, Moment.localDay, Moment.localMs,
    Moment.msOfDay, utcOffsetMs]
  omega

/-- C11: `getCurrentDayRange` bounds the business day that contains the current instant.
With `t` the current instant in epoch seconds: `start` is business-local midnight of the
calendar day of `t` (`start + 4*3600` is a multiple of 86400 and its day number is the local
day of `t`), `start ≤ t ≤ end`, `end = start + 86399`, and `startDate` and `endDate` are both
the business-local date of `t`.  At 2024-11-04 21:00 UTC the range is that of 2024-11-05,
while the UTC date is 2024-11-04. -/
theorem getCurrentDayRange_bounds {R : Type} (env : Env R) (w : World) :
    ((getCurrentDayRange env w).1.start + 4 * 3600) % 86400 = 0 ∧
    ((getCurrentDayRange env w).1.start + 4 * 3600) / 86400
      = (Moment.mk (env.clock w.reads)).localDay ∧
    (getCurrentDayRange env w).1.start ≤ (Moment.mk (env.clock w.reads)).unix ∧
    (Moment.mk (env.clock w.reads)).unix ≤ (getCurrentDayRange env w).1.«end» ∧
    (getCurrentDayRange env w).1.«end» = (getCurrentDayRange env w).1.start + 86399 ∧
    (getCurrentDayRange env w).1.startDate = (getCurrentDayRange env w).1.endDate ∧
    (getCurrentDayRange env w).1.startDate = (Moment.mk (env.clock w.reads)).formatDate ∧
    ((getCurrentDayRange scenarioD {}).1.startDate = "2024-11-05" ∧
      (getCurrentDayRange scenarioD {}).1.endDate = "2024-11-05" ∧
      (getCurrentDayRange scenarioD {}).1.start = 1730750400 ∧
      Moment.civil (scenarioD.clock 0 / 86400000) = (2024, 11, 4)) := by
  have hs : (getCurrentDayRange env w).1.start = (Moment.mk (env.clock w.reads)).startOfDay.unix :=
    rfl
  have he : (getCurrentDayRange env w).1.«end» = (Moment.mk (env.clock w.reads)).endOfDay.unix :=
    rfl
  have hsd : (getCurrentDayRange env w).1.startDate
      = (Moment.mk (env.clock w.reads)).startOfDay.formatDate := rfl
  have hed : (getCurrentDayRange env w).1.endDate
      = (Moment.mk (env.clock w.reads)).endOfDay.formatDate := rfl
  rw [hs, he, hsd, hed]
  refine ⟨?_, ?_, ?_, ?_, ?_, ?_, ?_, ?_⟩
  · simp only [Moment.unix, Moment.startOfDay, Moment.ofLocalMs, Moment.localMs,
      Moment.msOfDay, utcOffsetMs]
    omega
  · simp only [Moment.unix, Moment.startOfDay, Moment.ofLocalMs, Moment.localMs,
      Moment.msOfDay, Moment.localDay, utcOffsetMs]
    omega
  · simp only [Moment.unix, Moment.startOfDay, Moment.ofLocalMs, Moment.localMs,
      Moment.msOfDay, utcOffsetMs]
    omega
  · simp only [Moment.unix, Moment.endOfDay, Moment.ofLocalMs, Moment.localMs,
      Moment.msOfDay, utcOffsetMs]
    omega
  · simp only [Moment.unix, Moment.endOfDay, Moment.startOfDay, Moment.ofLocalMs,
      Moment.localMs, Moment.msOfDay, utcOffsetMs]
    omega
  · exact formatDate_of_localDay _ _
      ((startOfDay_localDay _).trans (endOfDay_localDay _).symm)
  · exact formatDate_of_localDay _ _ (startOfDay_localDay _)
  · decide

end StripeInvoice
